import Mathlib

/-
Verification development for the OBD_BEND gateway.

The repository contains two wire-protocol decoders:

* a binary (JT/T-808-style) frame decoder, implemented twice:
  - `src/protocol-parser.js` (class `ProtocolParser`), embedded below in
    namespace `ProtocolParser`;
  - `src/unnamed/part_000` (free functions `unescape`, `readBcd`, `parse`,
    ...), embedded below in namespace `Part000`;
* an acknowledgement-frame encoder `MessageHandler.sendResponse` in
  `src/message-handler.js`, embedded in namespace `MessageHandler`;
* a text/hex report decoder `QueclinkParser` in `src/parser.js`, embedded
  in namespace `QueclinkParser`.

Byte sequences are modelled as `List ℕ`; a JavaScript `Uint8Array` always
holds values `< 256`, and theorems that depend on that carry it as an
explicit hypothesis.  Out-of-range JavaScript array reads yield
`undefined`, which the bitwise operators of the sources coerce to `0`;
reads are therefore modelled with `List.getD _ _ 0` (noted per function
where it matters).
-/

namespace ProtocolParser

/-- Embedding of `readWord` (src/protocol-parser.js:3): big-endian 16-bit
read, `(data[offset] << 8) | data[offset + 1]`.  The same function appears
verbatim in src/unnamed/part_000:211 and src/server.js:203. -/
def readWord (data : List ℕ) (offset : ℕ) : ℕ :=
  ((data.getD offset 0) <<< 8) ||| data.getD (offset + 1) 0

/-- Embedding of `readBytes` (src/protocol-parser.js:5):
`data.subarray(offset, offset + length)`. -/
def readBytes (data : List ℕ) (offset length : ℕ) : List ℕ :=
  (data.drop offset).take length

/-- Digit string built by the loop of `readBcd`
(src/protocol-parser.js:9-14): for each byte, the decimal representations
of its high and low nibbles are appended.  Kept as a `List Char`; the
sources build a JavaScript string, whose characters this list models. -/
def bcdDigitList (data : List ℕ) (offset len : ℕ) : List Char :=
  (List.range len).foldr
    (fun i acc =>
      (Nat.repr ((data.getD (offset + i) 0) >>> 4 &&& 0x0f)).toList ++
        (Nat.repr (data.getD (offset + i) 0 &&& 0x0f)).toList ++ acc) []

/-- Embedding of `readBcd` (src/protocol-parser.js:7-16): nibble digits,
then `bcdString.startsWith('0') && bcdString.length > 1 ?
bcdString.substring(1) : bcdString` — exactly one leading zero digit is
stripped. -/
def readBcd (data : List ℕ) (offset len : ℕ) : String :=
  let l := bcdDigitList data offset len
  String.mk (if l.head? = some '0' ∧ 1 < l.length then l.tail else l)

/-- Embedding of `ProtocolParser.unescape` (src/protocol-parser.js:79-91).
The source iterates with an index and skips one extra position after a
consumed two-byte escape sequence; the recursion below consumes the same
bytes per step. -/
def unescape : List ℕ → List ℕ
  | [] => []
  | [x] => if x = 0x7d then [0x7d] else [x]
  | x :: y :: rest2 =>
    if x = 0x7d then
      if y = 0x01 then 0x7d :: unescape rest2
      else if y = 0x02 then 0x7e :: unescape rest2
      else 0x7d :: unescape (y :: rest2)
    else x :: unescape (y :: rest2)

/-- Embedding of `ProtocolParser.calculateChecksum`
(src/protocol-parser.js:93-98): XOR fold; the source's special case for
the empty input also returns 0, which the fold gives for free. -/
def calculateChecksum (data : List ℕ) : ℕ :=
  data.foldl (fun checksum byte => checksum ^^^ byte) 0

/-- Embedding of class `MessageHeader` (src/protocol-parser.js:24-35).
`packetItems` models `MessagePacketPackageItems` as a pair
(totalPackets, packetSequenceNo), `none` standing for `null`. -/
structure MessageHeader where
  messageId : ℕ
  messageBodyProperties : ℕ
  terminalMobileNo : String
  messageSerialNo : ℕ
  packetItems : Option (ℕ × ℕ)
deriving Repr, DecidableEq

/-- Result record of `ProtocolParser.parseHeader`
(src/protocol-parser.js:100-118). -/
structure HeaderParse where
  header : MessageHeader
  messageBodyAndChecksum : List ℕ
  headerLength : ℕ
  expectedBodyLength : ℕ
deriving Repr, DecidableEq

/-- Embedding of `ProtocolParser.parseHeader`
(src/protocol-parser.js:100-118). -/
def parseHeader (payload : List ℕ) : HeaderParse :=
  let messageId := readWord payload 0
  let messageBodyProperties := readWord payload 2
  let messageBodyLength := messageBodyProperties &&& 0x3ff
  let terminalMobileNo := readBcd payload 4 6
  let messageSerialNo := readWord payload 10
  let subpackaged := (messageBodyProperties >>> 13) &&& 0x01 = 1
  let packetItems : Option (ℕ × ℕ) :=
    if subpackaged then some (readWord payload 12, readWord payload 14) else none
  let messageContentStart := if subpackaged then 16 else 12
  { header :=
      { messageId := messageId
        messageBodyProperties := messageBodyProperties
        terminalMobileNo := terminalMobileNo
        messageSerialNo := messageSerialNo
        packetItems := packetItems }
    messageBodyAndChecksum := payload.drop messageContentStart
    headerLength := messageContentStart
    expectedBodyLength := messageBodyLength }

/-- Embedding of `TerminalRegisterMessage` (src/protocol-parser.js:48-75).
`licensePlateBytes` holds the bytes that `readString` would decode as
UTF-8 text (src/protocol-parser.js:18-22); the text decoding itself is
irrelevant to every claim and is not modelled. -/
structure TerminalRegisterMessage where
  header : MessageHeader
  provincialId : ℕ
  cityId : ℕ
  manufacturerId : List ℕ
  terminalModels : List ℕ
  terminalId : List ℕ
  licensePlateColor : ℕ
  licensePlateBytes : List ℕ
deriving Repr, DecidableEq

/-- Embedding of `ProtocolParser.parseMessageBody`
(src/protocol-parser.js:120-135): dispatch on the command id; only
0x0100 (terminal registration) is registered, every other id returns
`null`.  `readByte` at an out-of-range index yields `undefined` in the
source; it is modelled as 0 (no claim inspects `licensePlateColor` of a
truncated body). -/
def parseMessageBody (header : MessageHeader) (body : List ℕ) :
    Option TerminalRegisterMessage :=
  if header.messageId = 0x0100 then
    some
      { header := header
        provincialId := readWord body 0
        cityId := readWord body 2
        manufacturerId := readBytes body 4 5
        terminalModels := readBytes body 9 8
        terminalId := readBytes body 17 7
        licensePlateColor := body.getD 24 0
        licensePlateBytes := body.drop 25 }
  else none

/-- Embedding of `ProtocolParser.parse` (src/protocol-parser.js:137-161).
Every failure branch of the source logs and returns `null` (it never
throws; all operations used are total on a `Uint8Array`), modelled by
`none`.  The body-length comparison at line 157 only logs a warning and
does not alter the result.  Note that line 156 drops the final byte of
the already-checksum-stripped payload. -/
def parse (rawMessage : List ℕ) : Option TerminalRegisterMessage :=
  if rawMessage.length < 2 ∨ rawMessage.getD 0 0 ≠ 0x7e ∨
      rawMessage.getD (rawMessage.length - 1) 0 ≠ 0x7e then
    none
  else
    let escapedPayload := (rawMessage.drop 1).take (rawMessage.length - 2)
    let unescapedPayload := unescape escapedPayload
    if unescapedPayload.length < 13 then none
    else
      let receivedChecksum := unescapedPayload.getD (unescapedPayload.length - 1) 0
      let dataForChecksum := unescapedPayload.take (unescapedPayload.length - 1)
      let calculatedChecksum := calculateChecksum dataForChecksum
      if receivedChecksum ≠ calculatedChecksum then none
      else
        let hp := parseHeader dataForChecksum
        let actualMessageBodyBytes :=
          hp.messageBodyAndChecksum.take (hp.messageBodyAndChecksum.length - 1)
        parseMessageBody hp.header actualMessageBodyBytes

/-- Acceptance predicate of `ProtocolParser.parse`: the conjunction of the
three validation guards of src/protocol-parser.js:138-154 (frame markers
and minimum raw length, minimum unescaped length, checksum equality).  A
frame passing `parseAccepts` reaches `parseMessageBody`; a frame failing
it returns `null` from one of the guard branches. -/
def parseAccepts (rawMessage : List ℕ) : Bool :=
  decide (2 ≤ rawMessage.length) && decide (rawMessage.getD 0 0 = 0x7e) &&
    decide (rawMessage.getD (rawMessage.length - 1) 0 = 0x7e) &&
    (let unescapedPayload := unescape ((rawMessage.drop 1).take (rawMessage.length - 2))
     decide (13 ≤ unescapedPayload.length) &&
       decide (unescapedPayload.getD (unescapedPayload.length - 1) 0 =
         calculateChecksum (unescapedPayload.take (unescapedPayload.length - 1))))

/-- Frame-validity contract written from the specification's words
(spec.md §4.1): the first and last byte equal the frame marker 0x7E, the
unescaped payload between the markers has length at least 13, and its
last byte equals the XOR checksum of all preceding unescaped bytes. -/
def frameValidSpec (frame : List ℕ) : Bool :=
  decide (frame.head? = some 0x7e) && decide (frame.getLast? = some 0x7e) &&
    (let unescapedPayload := unescape ((frame.drop 1).take (frame.length - 2))
     decide (13 ≤ unescapedPayload.length) &&
       decide (unescapedPayload.getLast? =
         some (calculateChecksum (unescapedPayload.take (unescapedPayload.length - 1)))))

/-- The unescaped, checksum-stripped payload of a frame: the
`dataForChecksum` value of `parse` (src/protocol-parser.js:149). -/
def frameData (rawMessage : List ℕ) : List ℕ :=
  let unescapedPayload := unescape ((rawMessage.drop 1).take (rawMessage.length - 2))
  unescapedPayload.take (unescapedPayload.length - 1)

/-- The header decoded from a frame by `parse`
(src/protocol-parser.js:155). -/
def frameHeader (rawMessage : List ℕ) : MessageHeader :=
  (parseHeader (frameData rawMessage)).header

/-- The body bytes handed to `parseMessageBody` by `parse`
(src/protocol-parser.js:156). -/
def frameBody (rawMessage : List ℕ) : List ℕ :=
  let mb := (parseHeader (frameData rawMessage)).messageBodyAndChecksum
  mb.take (mb.length - 1)

end ProtocolParser

namespace Part000

/-- Hexadecimal digit test, as in the character class `[0-9a-fA-F]`. -/
def isHexDigitChar (c : Char) : Bool :=
  c.isDigit || (decide ('a' ≤ c) && decide (c ≤ 'f')) ||
    (decide ('A' ≤ c) && decide (c ≤ 'F'))

/-- Numeric value of a hexadecimal digit character (0 for others). -/
def hexDigitVal (c : Char) : ℕ :=
  if c.isDigit then c.toNat - '0'.toNat
  else if decide ('a' ≤ c) && decide (c ≤ 'f') then c.toNat - 'a'.toNat + 10
  else if decide ('A' ≤ c) && decide (c ≤ 'F') then c.toNat - 'A'.toNat + 10
  else 0

/-- Pairing loop of `hexToBytes` (src/unnamed/part_000:204-208): `substr(i,
2)` chunks of the cleaned string are parsed base 16; a trailing single
character forms a one-digit byte. -/
def hexPairs : List Char → List ℕ
  | [] => []
  | [c] => [hexDigitVal c]
  | c1 :: c2 :: rest => (16 * hexDigitVal c1 + hexDigitVal c2) :: hexPairs rest

/-- Embedding of `hexToBytes` (src/unnamed/part_000:202-209): strips every
non-hex character, then parses two-character chunks. -/
def hexToBytes (hex : String) : List ℕ :=
  hexPairs (hex.toList.filter fun c => isHexDigitChar c)

/-- Embedding of `unescape` (src/unnamed/part_000:252-272).  Unlike
`ProtocolParser.unescape`, the branch for an escape byte in final
position has no `else` arm: a trailing 0x7D is dropped from the
output. -/
def unescape : List ℕ → List ℕ
  | [] => []
  | [x] => if x = 0x7d then [] else [x]
  | x :: y :: rest2 =>
    if x = 0x7d then
      if y = 0x01 then 0x7d :: unescape rest2
      else if y = 0x02 then 0x7e :: unescape rest2
      else 0x7d :: unescape (y :: rest2)
    else x :: unescape (y :: rest2)

/-- Embedding of `readBcd` (src/unnamed/part_000:228-237).  The digit
string is built exactly as in `ProtocolParser.readBcd`; the trim is
`result.replace(/^0+(?!$)/, '')`, i.e. all leading zeros are removed
except that the final character survives when the string is entirely
zeros. -/
def readBcd (data : List ℕ) (offset len : ℕ) : String :=
  let l := ProtocolParser.bcdDigitList data offset len
  let k := (l.takeWhile fun c => c = '0').length
  String.mk (if k = l.length ∧ 0 < k then l.drop (k - 1) else l.drop k)

/-- Embedding of `calculateChecksum` (src/unnamed/part_000:248-250):
`bytes.reduce((checksum, b) => checksum ^ b, 0)`. -/
def calculateChecksum (data : List ℕ) : ℕ :=
  data.foldl (fun checksum b => checksum ^^^ b) 0

/-- Header record built by `parseHeader` (src/unnamed/part_000:297-303). -/
structure Header where
  messageId : ℕ
  messageBodyProperties : ℕ
  terminalMobileNo : String
  messageSerialNo : ℕ
  packetItems : Option (ℕ × ℕ)
deriving Repr, DecidableEq

/-- Embedding of `parseHeader` (src/unnamed/part_000:274-306); returns the
header together with the offset at which the body starts. -/
def parseHeader (bytes : List ℕ) : Header × ℕ :=
  let messageId := ProtocolParser.readWord bytes 0
  let bodyProps := ProtocolParser.readWord bytes 2
  let terminalMobileNo := readBcd bytes 4 6
  let serialNo := ProtocolParser.readWord bytes 10
  let subpackaged := (bodyProps >>> 13) &&& 0x01 ≠ 0
  let packetItems : Option (ℕ × ℕ) :=
    if subpackaged then some (ProtocolParser.readWord bytes 12, ProtocolParser.readWord bytes 14)
    else none
  (⟨messageId, bodyProps, terminalMobileNo, serialNo, packetItems⟩,
    if subpackaged then 16 else 12)

/-- Lower-case hexadecimal representation, as produced by JavaScript
`n.toString(16)` for a natural number. -/
def natToHexStr (n : ℕ) : String :=
  String.mk (Nat.toDigits 16 n)

/-- JavaScript `n.toString(16).padStart(w, '0')`. -/
def natToHexPad (n w : ℕ) : String :=
  let s := Nat.toDigits 16 n
  String.mk (List.replicate (w - s.length) '0' ++ s)

/-- JavaScript `[...bytes].map(b => b.toString(16).padStart(2,
'0')).join('')`. -/
def bytesToHexStr (l : List ℕ) : String :=
  String.join (l.map fun b => natToHexPad b 2)

/-- Registration record built by `parseMessageBody`
(src/unnamed/part_000:330-342).  `licensePlate` keeps the raw bytes that
`readString` (src/unnamed/part_000:239-246) would decode as text. -/
structure RegisterMessage where
  type : String
  messageId : String
  serialNo : ℕ
  terminalMobileNo : String
  provincialId : ℕ
  cityId : ℕ
  manufacturerId : String
  terminalModels : String
  terminalId : String
  licensePlateColor : ℕ
  licensePlate : List ℕ
deriving Repr, DecidableEq

/-- Embedding of `parseMessageBody` (src/unnamed/part_000:308-346): only
command id 0x0100 is interpreted; every other id returns `null`. -/
def parseMessageBody (header : Header) (bytes : List ℕ) : Option RegisterMessage :=
  if header.messageId = 0x0100 then
    some
      { type := "TerminalRegisterMessage"
        messageId := "0x" ++ natToHexPad header.messageId 4
        serialNo := header.messageSerialNo
        terminalMobileNo := header.terminalMobileNo
        provincialId := ProtocolParser.readWord bytes 0
        cityId := ProtocolParser.readWord bytes 2
        manufacturerId := bytesToHexStr (ProtocolParser.readBytes bytes 4 5)
        terminalModels := bytesToHexStr (ProtocolParser.readBytes bytes 9 8)
        terminalId := bytesToHexStr (ProtocolParser.readBytes bytes 17 7)
        licensePlateColor := bytes.getD 24 0
        licensePlate := bytes.drop 25 }
  else none

/-- Embedding of `parse` (src/unnamed/part_000:348-373).  Unlike
`ProtocolParser.parse`, every validation failure `throw`s an `Error`
that propagates out of the function (its caller at
src/unnamed/part_000:70 installs no handler); modelled with
`Except.error` carrying the `Error` message. -/
def parse (hexString : String) : Except String (Option RegisterMessage) :=
  let message := hexToBytes hexString
  if message.head? ≠ some 0x7e ∨ message.getLast? ≠ some 0x7e then
    .error "Invalid message framing."
  else
    let escaped := (message.drop 1).take (message.length - 2)
    let unescaped := unescape escaped
    if unescaped.length < 13 then .error "Unescaped message too short."
    else
      let receivedChecksum := unescaped.getD (unescaped.length - 1) 0
      let data := unescaped.take (unescaped.length - 1)
      let calculated := calculateChecksum data
      if receivedChecksum ≠ calculated then
        .error ("Checksum mismatch. Received: 0x" ++ natToHexStr receivedChecksum ++
          ", Expected: 0x" ++ natToHexStr calculated)
      else
        let ho := parseHeader data
        let body := data.drop ho.2
        .ok (parseMessageBody ho.1 body)

end Part000

namespace MessageHandler

/-- Modelled from the spec: `escapeBuffer` is used by
`MessageHandler.sendResponse` (src/message-handler.js:93) but its
definition is not under src/.  Spec.md §4.1 fixes the mapping: a literal
0x7E becomes 0x7D 0x02, a literal 0x7D becomes 0x7D 0x01, every other
byte is unchanged. -/
def escapeBuffer : List ℕ → List ℕ
  | [] => []
  | b :: rest =>
    if b = 0x7e then 0x7d :: 0x02 :: escapeBuffer rest
    else if b = 0x7d then 0x7d :: 0x01 :: escapeBuffer rest
    else b :: escapeBuffer rest

/-- Modelled from the spec: `START_END_BYTE` is used by
`MessageHandler.sendResponse` (src/message-handler.js:96-98) but not
defined under src/; spec.md §3/§6 fix the frame marker as 0x7E. -/
def START_END_BYTE : ℕ := 0x7e

/-- JavaScript `buffer.writeUInt16BE(v, _)`: big-endian byte pair.  The
source call validates `v ≤ 0xffff` (and throws a `RangeError`
otherwise); theorems about `sendResponse` carry that bound as a
hypothesis. -/
def word16 (v : ℕ) : List ℕ :=
  [(v >>> 8) &&& 0xff, v &&& 0xff]

/-- Embedding of `MessageHandler.sendResponse`
(src/message-handler.js:82-102) up to the socket write: the 12-byte
header (message id, body length as the body-property word, 6 bytes of
`simBuffer` into a zero-filled buffer, serial number), the body, a
one-byte XOR checksum over header and body, byte-stuffing, and the frame
markers.  `calculateChecksum` is not defined in message-handler.js
itself; the XOR fold of src/protocol-parser.js:93-98 is used (spec.md
§4.1: XOR-fold of all bytes). -/
def sendResponse (messageId : ℕ) (simBuffer : List ℕ) (serialNo : ℕ)
    (bodyBuffer : List ℕ) : List ℕ :=
  let header := word16 messageId ++ word16 bodyBuffer.length ++
    (simBuffer.take 6 ++ List.replicate (6 - simBuffer.length) 0) ++ word16 serialNo
  let fullMessage := header ++ bodyBuffer
  let checksum := ProtocolParser.calculateChecksum fullMessage
  let escapedBody := escapeBuffer (fullMessage ++ [checksum])
  START_END_BYTE :: escapedBody ++ [START_END_BYTE]

end MessageHandler

namespace QueclinkParser

/-- JavaScript whitespace for `String.prototype.trim`, restricted to the
ASCII range (the claims only involve ASCII input). -/
def jsIsSpace (c : Char) : Bool :=
  c = ' ' || c = '\t' || c = '\n' || c = '\r' || c = '\x0b' || c = '\x0c'

/-- JavaScript `s.trim()` on ASCII input. -/
def jsTrim (s : String) : String :=
  String.mk (((s.toList.dropWhile jsIsSpace).reverse.dropWhile jsIsSpace).reverse)

/-- Leading-segment test on character lists (computation kept structural so that
concrete frames evaluate inside proofs). -/
def charsLead : List Char → List Char → Bool
  | [], _ => true
  | _ :: _, [] => false
  | p :: ps, c :: cs => if p = c then charsLead ps cs else false

/-- JavaScript `s.startsWith(pre)`. -/
def jsStartsWith (s pre : String) : Bool :=
  charsLead pre.toList s.toList

/-- JavaScript `s.endsWith(suffix)`. -/
def jsEndsWith (s suffix : String) : Bool :=
  charsLead suffix.toList.reverse s.toList.reverse

/-- JavaScript `s.slice(0, -1)`: the string without its final character. -/
def jsDropLast (s : String) : String :=
  String.mk s.toList.dropLast

/-- The string without its first `n` characters (used for the part of a
header following the matched class prefix). -/
def jsDropChars (s : String) (n : ℕ) : String :=
  String.mk (s.toList.drop n)

/-- Split on a separator character, as JavaScript `s.split(sep)` and the
source's `message.split(',')` do. -/
def splitOnChar (sep : Char) : List Char → List (List Char)
  | [] => [[]]
  | c :: t =>
    match splitOnChar sep t with
    | [] => [[]]
    | h :: r => if c = sep then [] :: h :: r else (c :: h) :: r

/-- JavaScript `s.split(String.fromCharCode(sep))` as a string list. -/
def jsSplit (sep : Char) (s : String) : List String :=
  (splitOnChar sep s.toList).map String.mk

/-- JavaScript `s.substring(a, b)` for `a ≤ b`: both indices are clamped
to the string length. -/
def jsSubstring (s : String) (a b : ℕ) : String :=
  String.mk ((s.toList.drop a).take (b - a))

/-- Numeric value of a character under a radix, `none` when the character
is not a digit of that radix (digits 0-9 and letters in either case, as
JavaScript `parseInt` accepts). -/
def digitVal (c : Char) : Option ℕ :=
  if 48 ≤ c.toNat ∧ c.toNat ≤ 57 then some (c.toNat - 48)
  else if 97 ≤ c.toNat ∧ c.toNat ≤ 122 then some (c.toNat - 97 + 10)
  else if 65 ≤ c.toNat ∧ c.toNat ≤ 90 then some (c.toNat - 65 + 10)
  else none

/-- Decimal digit test by character code (48-57 are '0'-'9'). -/
def isDigitCharCode (c : Char) : Bool :=
  decide (48 ≤ c.toNat) && decide (c.toNat ≤ 57)

/-- Value of a digit list under a radix (most significant first). -/
def digitsVal (radix : ℕ) (l : List Char) : ℕ :=
  l.foldl (fun acc c => acc * radix + (digitVal c).getD 0) 0

/-- JavaScript `parseInt(s, radix)`: skip leading whitespace, an optional
sign, for radix 16 an optional `0x` prefix, then the longest run of
digits valid for the radix; `NaN` (here `none`) when that run is
empty. -/
def jsParseInt (radix : ℕ) (s : String) : Option ℤ :=
  let l := s.toList.dropWhile jsIsSpace
  let sign : ℤ := if l.head? = some '-' then -1 else 1
  let l := if l.head? = some '-' ∨ l.head? = some '+' then l.tail else l
  let l := if radix = 16 then
      match l with
      | '0' :: 'x' :: r => r
      | '0' :: 'X' :: r => r
      | _ => l
    else l
  let ds := l.takeWhile fun c => ((digitVal c).map fun v => decide (v < radix)).getD false
  if ds.isEmpty then none else some (sign * (digitsVal radix ds : ℤ))

/-- Embedding of `QueclinkParser._toNumber` (src/parser.js:216-222) for
integer parsing: empty, `undefined` and `null` arguments give `null`, as
does an unparseable string.  Missing array elements (`undefined`) are
modelled as `""`, which every reader used here treats identically. -/
def toNumberRadix (radix : ℕ) (value : String) : Option ℤ :=
  if value = "" then none else jsParseInt radix value

/-- Embedding of `QueclinkParser._toNumberFromHex` (src/parser.js:224-230). -/
def toNumberFromHex (value : String) : Option ℤ :=
  toNumberRadix 16 value

/-- Embedding of `QueclinkParser._toString` (src/parser.js:237-239). -/
def toStringField (value : String) : Option String :=
  if value = "" then none else some value

/-- Embedding of `QueclinkParser._mapCsqRssiToDbm` (src/parser.js:247-259).
In the interpolation branch the source computes
`Math.round(-109 + (rssi - 2) * (56 / 28))`; `56 / 28` is exactly 2 in
floating point and the product is an integer, so `Math.round` is the
identity and the branch is the exact integer `-109 + (rssi - 2) * 2`. -/
def mapCsqRssiToDbm (rssi : ℤ) : String :=
  if rssi = 0 then "<-113 dBm"
  else if rssi = 1 then "-111 dBm"
  else if 2 ≤ rssi ∧ rssi ≤ 30 then toString (-109 + (rssi - 2) * 2) ++ " dBm"
  else if rssi = 31 then ">-51 dBm"
  else if rssi = 99 then "Unknown"
  else "Invalid RSSI"

/-- Proleptic Gregorian leap-year rule, as used by the JavaScript `Date`
object underlying `_parseDateTime`. -/
def isLeap (y : ℤ) : Bool :=
  y % 4 = 0 && (y % 100 ≠ 0 || y % 400 = 0)

/-- Days in month `m` (0-indexed, January = 0) of year `y`. -/
def daysInMonthN (y m : ℤ) : ℕ :=
  if m = 1 then (if isLeap y then 29 else 28)
  else if m = 3 ∨ m = 5 ∨ m = 8 ∨ m = 10 then 30
  else 31

/-- Month after (y, m) in 0-indexed months. -/
def nextMonth (y m : ℤ) : ℤ × ℤ :=
  if m = 11 then (y + 1, 0) else (y, m + 1)

/-- Month before (y, m) in 0-indexed months. -/
def prevMonth (y m : ℤ) : ℤ × ℤ :=
  if m = 0 then (y - 1, 11) else (y, m - 1)

/-- Worker for forward day normalisation.  The first argument is a
structural-recursion bound: each loop iteration consumes at least 28
days of the offset, so a bound of `n + 1` always suffices and the
out-of-fuel branch is unreachable from `addDaysFwd`. -/
def addDaysFwdAux : ℕ → ℤ → ℤ → ℕ → ℤ × ℤ × ℤ
  | 0, y, m, n => (y, m, (n : ℤ) + 1)
  | fuel + 1, y, m, n =>
    if n < daysInMonthN y m then (y, m, (n : ℤ) + 1)
    else addDaysFwdAux fuel (nextMonth y m).1 (nextMonth y m).2 (n - daysInMonthN y m)

/-- Normalisation of a forward day offset against the calendar: starting
from day 1 of month (y, m), advance `n` days.  This is how the `Date`
constructor resolves an overflowing day-of-month (e.g. Feb 30 becomes
Mar 2). -/
def addDaysFwd (y m : ℤ) (n : ℕ) : ℤ × ℤ × ℤ :=
  addDaysFwdAux (n + 1) y m n

/-- Worker for backward day normalisation, with the same
structural-recursion bound. -/
def addDaysBwdAux : ℕ → ℤ → ℤ → ℕ → ℤ × ℤ × ℤ
  | 0, y, m, k => (y, m, (1 : ℤ) - k)
  | fuel + 1, y, m, k =>
    let p := prevMonth y m
    let dim := daysInMonthN p.1 p.2
    if k ≤ dim then (p.1, p.2, (dim : ℤ) - k + 1)
    else addDaysBwdAux fuel p.1 p.2 (k - dim)

/-- Normalisation of a backward day offset: `k ≥ 1` days before day 1 of
month (y, m) (e.g. `new Date(2023, 0, 0)` is Dec 31, 2022). -/
def addDaysBwd (y m : ℤ) (k : ℕ) : ℤ × ℤ × ℤ :=
  addDaysBwdAux (k + 1) y m k

/-- Calendar components produced by the JavaScript constructor
`new Date(year, month, day, hours, minutes, seconds)`: two-digit years
are shifted to 1900-1999, an out-of-range month rolls into the year
(floor division, so month -1 is December of the previous year), and the
day plus the whole days carried out of the time-of-day fields roll
through the month lengths.  Integer `/` and `%` on ℤ give floor
semantics for the positive divisors used, matching the timestamp
arithmetic.  Time zone transitions are not modelled
(the construction is treated as fixed-offset civil time; daylight-saving
shifts cannot move the calendar date for in-range times). -/
def jsDateCivil (year month day hours minutes seconds : ℤ) : ℤ × ℤ × ℤ :=
  let yq := if 0 ≤ year ∧ year ≤ 99 then year + 1900 else year
  let t := hours * 3600 + minutes * 60 + seconds
  let carryDays := t / 86400
  let y1 := yq + month / 12
  let m1 := month % 12
  let n := day - 1 + carryDays
  if 0 ≤ n then addDaysFwd y1 m1 n.toNat else addDaysBwd y1 m1 (-n).toNat

/-- A JavaScript `Date` as observed through its getters; `month` is
0-indexed as `getMonth()` is. -/
structure JsDate where
  year : ℤ
  month : ℤ
  day : ℤ
  hour : ℤ
  minute : ℤ
  second : ℤ
deriving Repr, DecidableEq

/-- Embedding of `new Date(year, month, day, hours, minutes, seconds)`
together with its component getters. -/
def jsNewDate (year month day hours minutes seconds : ℤ) : JsDate :=
  let c := jsDateCivil year month day hours minutes seconds
  let t := hours * 3600 + minutes * 60 + seconds
  let tod := t % 86400
  { year := c.1, month := c.2.1, day := c.2.2
    hour := tod / 3600
    minute := (tod % 3600) / 60
    second := tod % 60 }

/-- Embedding of `QueclinkParser._parseDateTime` (src/parser.js:359-378):
a 14-character string is cut into YYYY, MM, DD, HH, MM, SS, a `Date` is
constructed from them (month passed 0-indexed), and the result is kept
only if `getFullYear`, `getMonth` and `getDate` reproduce the parsed
numbers.  If any `parseInt` yields `NaN` the `Date` is invalid, every
getter returns `NaN`, and the comparison fails — modelled by the
catch-all `none`. -/
def parseDateTime (dtString : String) : Option JsDate :=
  if dtString ≠ "" ∧ dtString.length = 14 then
    match jsParseInt 10 (jsSubstring dtString 0 4),
        jsParseInt 10 (jsSubstring dtString 4 6),
        jsParseInt 10 (jsSubstring dtString 6 8),
        jsParseInt 10 (jsSubstring dtString 8 10),
        jsParseInt 10 (jsSubstring dtString 10 12),
        jsParseInt 10 (jsSubstring dtString 12 14) with
    | some year, some mon, some day, some hour, some minute, some second =>
      let month := mon - 1
      let date := jsNewDate year month day hour minute second
      if date.year = year ∧ date.month = month ∧ date.day = day then some date
      else none
    | _, _, _, _, _, _ => none
  else none

/-- Embedding of `QueclinkParser._parseHexDateTime`
(src/parser.js:2764-2781): same validation as `_parseDateTime` but each
component is parsed base 16 from a 14-character hex string. -/
def parseHexDateTime (hexTime : String) : Option JsDate :=
  if hexTime ≠ "" ∧ hexTime.length = 14 then
    match jsParseInt 16 (jsSubstring hexTime 0 4),
        jsParseInt 16 (jsSubstring hexTime 4 6),
        jsParseInt 16 (jsSubstring hexTime 6 8),
        jsParseInt 16 (jsSubstring hexTime 8 10),
        jsParseInt 16 (jsSubstring hexTime 10 12),
        jsParseInt 16 (jsSubstring hexTime 12 14) with
    | some year, some mon, some day, some hour, some minute, some second =>
      let month := mon - 1
      let date := jsNewDate year month day hour minute second
      if date.year = year ∧ date.month = month ∧ date.day = day then some date
      else none
    | _, _, _, _, _, _ => none
  else none

/-- A calendar date that really exists (month given 1-based as in the
digit string): the reference notion for the claims about
`_parseDateTime`. -/
def realCalendarDate (y mo d : ℤ) : Prop :=
  1 ≤ mo ∧ mo ≤ 12 ∧ 1 ≤ d ∧ d ≤ daysInMonthN y (mo - 1)

instance (y mo d : ℤ) : Decidable (realCalendarDate y mo d) := by
  unfold realCalendarDate
  infer_instance

/-- Representation of a JavaScript number field that can be `NaN`;
`toString` on `NaN` yields the string "NaN", as in the template literal
of `_parseProtocolVersion`. -/
def numOrNaNStr (o : Option ℤ) : String :=
  match o with
  | some n => toString n
  | none => "NaN"

/-- Result record of `QueclinkParser._parseProtocolVersion`
(src/parser.js:550-587).  `raw` keeps the argument string; `""` stands
for an empty or missing argument. -/
structure PVersion where
  raw : String
  deviceType : Option ℤ
  deviceTypeName : String
  majorVersion : Option ℤ
  minorVersion : Option ℤ
  formattedVersion : Option String
deriving Repr, DecidableEq

/-- Embedding of `QueclinkParser._parseProtocolVersion`
(src/parser.js:550-587). -/
def parseProtocolVersion (protocolVersion : String) : PVersion :=
  if protocolVersion = "" ∨ protocolVersion.length ≠ 6 then
    { raw := protocolVersion, deviceType := none, deviceTypeName := "Unknown"
      majorVersion := none, minorVersion := none, formattedVersion := none }
  else
    let deviceTypeHex := jsSubstring protocolVersion 0 2
    let deviceType := jsParseInt 16 deviceTypeHex
    let majorVersion := jsParseInt 16 (jsSubstring protocolVersion 2 4)
    let minorVersion := jsParseInt 16 (jsSubstring protocolVersion 4 6)
    let deviceTypeName :=
      if deviceType = some 0x5e then "GV500MAP"
      else "Unknown (0x" ++ deviceTypeHex ++ ")"
    { raw := protocolVersion, deviceType := deviceType
      deviceTypeName := deviceTypeName
      majorVersion := majorVersion, minorVersion := minorVersion
      formattedVersion := some (numOrNaNStr majorVersion ++ "." ++ numOrNaNStr minorVersion) }

/-- Field access `params[i]` on the parameter array: a missing element is
`undefined` in the source, modelled as `""` (every field reader used in
the embedded layouts treats `undefined` and `''` identically). -/
def pget (params : List String) (i : ℕ) : String :=
  params.getD i ""

/-- Result record of `QueclinkParser.parseGTCID` (src/parser.js:1307-1317). -/
structure GTCIDReport where
  protocolVersion : PVersion
  uniqueId : Option String
  vin : Option String
  deviceName : Option String
  iccId : Option String
  sendTime : Option JsDate
  countNumber : Option ℤ
deriving Repr, DecidableEq

/-- Embedding of `QueclinkParser.parseGTCID` (src/parser.js:1307-1317):
fixed-position field layout of the ICCID report. -/
def parseGTCID (params : List String) : GTCIDReport :=
  { protocolVersion := parseProtocolVersion (pget params 0)
    uniqueId := toStringField (pget params 1)
    vin := toStringField (pget params 2)
    deviceName := toStringField (pget params 3)
    iccId := toStringField (pget params 4)
    sendTime := parseDateTime (pget params 5)
    countNumber := toNumberFromHex (pget params 6) }

/-- A JavaScript exception value (only the kinds thrown on the embedded
paths are distinguished). -/
inductive JsErr where
  | typeError (message : String)
  | rangeError (message : String)
deriving Repr, DecidableEq

/-- Argument value passed to an ASCII layout function: `parseASCII`
(src/parser.js:159) passes the parameter array, but `parseGTALM` is
written against a string argument. -/
inductive JParam where
  | jarr (params : List String)
  | jstr (s : String)

/-- Every mnemonic registered in `this.asciiParsers`
(src/parser.js:11-83), including the special `BUFF` key. -/
def asciiParserKeys : List String :=
  ["GTTOW", "GTGEO", "GTSPD", "GTRTL", "GTDOG", "GTIGL", "GTVGL",
   "GTEPS", "GTFRI", "GTALS", "GTHBM", "GTGES", "GTINF", "GTGPS",
   "GTALM", "GTCID", "GTCSQ", "GTVER", "GTBAT", "GTTMZ", "GTGSV",
   "GTATI", "GTAIF", "GTBTI", "GTPNA", "GTPFA", "GTPDP", "GTMPN",
   "GTMPF", "GTBTC", "GTSTC", "GTBPL", "GTSTT", "GTIGN", "GTIGF",
   "GTIDN", "GTSTR", "GTSTP", "GTLSP", "GTIDF", "GTGSM", "GTGSS",
   "GTCRA", "GTASC", "GTRMD", "GTUPC", "GTEUC", "GTBSF", "GTSVR",
   "GTOBD", "GTOPN", "GTOPF", "GTJES", "GTOER", "GTOSM", "GTVGN",
   "GTVGF", "GTBAA", "BUFF"]

/-- Embedding of `QueclinkParser.parseGTALM` (src/parser.js:820-835).  Its
body begins `const parts = params.split(',')`; `parseASCII` passes the
parameter *array*, which has no `split` method, so the call throws a
`TypeError` immediately.  Even for a string argument the third statement
is `this.parseDateTime(parts[2])` (src/parser.js:827), and the class has
no `parseDateTime` method (only `_parseDateTime`), so that call throws a
`TypeError` as well.  Every execution therefore aborts before the
section-splitting code at src/parser.js:836-1262, which is dead code. -/
def parseGTALM (params : JParam) : Except JsErr GTCIDReport :=
  match params with
  | .jarr _ => .error (.typeError "params.split is not a function")
  | .jstr _ => .error (.typeError "this.parseDateTime is not a function")

/-- Tags for the layout functions reachable from the embedded claims; the
remaining registered layouts are abstracted by `other` (none of the
theorems below evaluates them). -/
inductive NonBuffFn where
  | fnGTCID
  | fnGTALM
  | other (mnemonic : String)
deriving Repr, DecidableEq

/-- Parsed data produced by an ASCII layout function. -/
inductive AsciiData where
  | gtcid (r : GTCIDReport)
  | buffWrapped (originalCommand : String) (inner : AsciiData)
  | buffRaw (originalCommand : String) (rawData : String)
  | otherReport (mnemonic : String)
deriving Repr, DecidableEq

/-- Lookup in `this.asciiParsers` restricted to the three concretely
modelled entries; any other registered key is reported as `other`. -/
def lookupNonBuff (key : String) : Option NonBuffFn :=
  if key = "GTCID" then some .fnGTCID
  else if key = "GTALM" then some .fnGTALM
  else if key ∈ asciiParserKeys ∧ key ≠ "BUFF" then some (.other key)
  else none

/-- Application of a non-BUFF layout function to the parameter array.
`fnGTCID` and `fnGTALM` follow their sources exactly; `other` stands for
the layouts not needed by any claim (their concrete field records are
not modelled; no theorem below evaluates this branch). -/
def applyNonBuff (fn : NonBuffFn) (params : List String) : Except JsErr AsciiData :=
  match fn with
  | .fnGTCID => .ok (.gtcid (parseGTCID params))
  | .fnGTALM => (parseGTALM (.jarr params)).map .gtcid
  | .other mn => .ok (.otherReport mn)

/-- Embedding of `QueclinkParser.parseBufferReport`
(src/parser.js:2465-2492).  `commandType` was already cut out of the
header `+BUFF:<MNEMONIC>` by `parseASCII`, yet the function still drops
`params[0]` (`params.slice(1)`, src/parser.js:2470) before re-dispatch,
so the first *data* field of the buffered report is discarded.  A
`+BUFF:BUFF` message recurses into itself forever (stack overflow); the
resulting `RangeError` is caught by the surrounding `try` at
src/parser.js:2481, which returns `null` — modelled by `none`.  A throw
from the inner layout (e.g. GTALM) is caught the same way. -/
def parseBufferReport (params : List String) (commandType : String) :
    Option AsciiData :=
  let originalCommandType := commandType
  let remainingParams := params.drop 1
  if originalCommandType = "BUFF" then none
  else
    match lookupNonBuff originalCommandType with
    | some fn =>
      match applyNonBuff fn remainingParams with
      | .ok inner => some (.buffWrapped originalCommandType inner)
      | .error _ => none
    | none => some (.buffRaw originalCommandType (String.intercalate "," remainingParams))

/-- Character class `[A-Z0-9]` of the header regular expression. -/
def isUpperOrDigit (c : Char) : Bool :=
  (decide ('A' ≤ c) && decide (c ≤ 'Z')) || c.isDigit

/-- Match of `/^\+(RESP|ACK|BUFF):([A-Z0-9]+)$/` against the first
comma-separated field (src/parser.js:135): returns the message class and
the command mnemonic. -/
def matchAsciiHeader (header : String) : Option (String × String) :=
  if jsStartsWith header "+RESP:" then
    let rest := jsDropChars header 6
    if rest ≠ "" ∧ rest.toList.all isUpperOrDigit then some ("RESP", rest) else none
  else if jsStartsWith header "+ACK:" then
    let rest := jsDropChars header 5
    if rest ≠ "" ∧ rest.toList.all isUpperOrDigit then some ("ACK", rest) else none
  else if jsStartsWith header "+BUFF:" then
    let rest := jsDropChars header 6
    if rest ≠ "" ∧ rest.toList.all isUpperOrDigit then some ("BUFF", rest) else none
  else none

/-- Wrapper object returned by `QueclinkParser.parseASCII`
(src/parser.js:160-165); `parsedData` is `none` when the layout function
returned `null` (possible on the BUFF path). -/
structure AsciiResult where
  originalMessage : String
  messageType : String
  command : String
  parsedData : Option AsciiData
deriving Repr, DecidableEq

/-- Embedding of `QueclinkParser.parseASCII` (src/parser.js:132-174):
split on commas, match the class/mnemonic header, dispatch through the
registry (`BUFF` messages through `parseBufferReport`, which never
throws; other messages through their layout function, whose exceptions
are caught at src/parser.js:166 and turned into `null`). -/
def parseASCII (message : String) : Option AsciiResult :=
  let parts := jsSplit ',' message
  let header := parts.headD ""
  match matchAsciiHeader header with
  | none => none
  | some (msgClass, commandType) =>
    if msgClass = "BUFF" then
      some
        { originalMessage := message ++ "$"
          messageType := msgClass
          command := commandType
          parsedData := parseBufferReport (parts.drop 1) commandType }
    else
      match lookupNonBuff commandType with
      | none => none
      | some fn =>
        match applyNonBuff fn (parts.drop 1) with
        | .error _ => none
        | .ok d =>
          some
            { originalMessage := message ++ "$"
              messageType := msgClass
              command := commandType
              parsedData := some d }

/-- JavaScript `s.toUpperCase()` on ASCII input. -/
def jsToUpper (s : String) : String :=
  String.mk (s.toList.map Char.toUpper)

/-- Result record of `QueclinkParser.parseHEXHBD`
(src/parser.js:3051-3082): a pure length-driven cursor over the hex
string, with `substring` clamping at the end of the input. -/
structure HexHBDReport where
  hexHeader : String
  messageCode : Option ℤ
  reportMask : String
  length : Option ℤ
  deviceType : String
  protocolVersion : String
  firmwareVersion : String
  uniqueId : String
  sendTime : Option JsDate
  countNumber : String
  checksum : String
  tailCharacters : String
deriving Repr, DecidableEq

/-- Embedding of `QueclinkParser.parseHEXHBD` (src/parser.js:3051-3082).
The cursor offsets are the cumulative byte counts of the source's
`getHexBytes`/`getDecimal` calls. -/
def parseHEXHBD (hexMessage : String) : HexHBDReport :=
  { hexHeader := jsSubstring hexMessage 0 8
    messageCode := toNumberRadix 16 (jsSubstring hexMessage 8 10)
    reportMask := jsSubstring hexMessage 10 14
    length := toNumberRadix 16 (jsSubstring hexMessage 14 18)
    deviceType := jsSubstring hexMessage 18 20
    protocolVersion := jsSubstring hexMessage 20 24
    firmwareVersion := jsSubstring hexMessage 24 28
    uniqueId := jsSubstring hexMessage 28 44
    sendTime := parseHexDateTime (jsSubstring hexMessage 44 58)
    countNumber := jsSubstring hexMessage 58 62
    checksum := jsSubstring hexMessage 62 66
    tailCharacters := jsSubstring hexMessage 66 70 }

/-- Parsed data of a HEX-format report.  Families other than `+HBD` are
not field-modelled (`otherFamily`); their decoders
(src/parser.js:2801-3285) perform only total string and number
operations and return an object, and no theorem below evaluates them. -/
inductive HexData where
  | hbd (r : HexHBDReport)
  | otherFamily (headerKey : String)
deriving Repr, DecidableEq

/-- Wrapper object returned by `QueclinkParser.parseHEX`
(src/parser.js:190-195). -/
structure HexResult where
  originalMessage : String
  messageType : String
  command : String
  parsedData : HexData
deriving Repr, DecidableEq

/-- Embedding of `QueclinkParser.parseHEX` (src/parser.js:181-204).  The
`+ACK` family decoder `parseHEXACK` at src/parser.js:2748 reads the
undefined identifier `params`, so it always throws a `ReferenceError`;
the `catch` at src/parser.js:196 turns that into `null`.  The other
seven families return an object. -/
def parseHEX (message : String) : Option HexResult :=
  let headerHex := jsToUpper (jsSubstring message 0 8)
  if headerHex = "2B41434B" then none
  else if headerHex = "2B484244" then
    some
      { originalMessage := message, messageType := "HEX"
        command := headerHex, parsedData := .hbd (parseHEXHBD message) }
  else if headerHex = "2B525350" ∨ headerHex = "2B455654" ∨ headerHex = "2B494E46" ∨
      headerHex = "2B435244" ∨ headerHex = "2B4F4244" ∨ headerHex = "2B415449" then
    some
      { originalMessage := message, messageType := "HEX"
        command := headerHex, parsedData := .otherFamily headerHex }
  else none

/-- A JavaScript value handed to `QueclinkParser.parse`; only strings are
processed, everything else fails the type guard at src/parser.js:104. -/
inductive QJsInput where
  | jstr (s : String)
  | jnull
  | jundef
  | jnum (n : ℤ)
  | jbool (b : Bool)
deriving Repr, DecidableEq

/-- Result of `QueclinkParser.parse`. -/
inductive QResult where
  | ascii (r : AsciiResult)
  | hex (r : HexResult)
deriving Repr, DecidableEq

/-- Hexadecimal-character test of the regular expression
`/^[0-9A-Fa-f]+$/` (src/parser.js:119). -/
def isHexChar (c : Char) : Bool :=
  c.isDigit || (decide ('a' ≤ c) && decide (c ≤ 'f')) ||
    (decide ('A' ≤ c) && decide (c ≤ 'F'))

/-- Embedding of `QueclinkParser.parse` (src/parser.js:103-125): reject
non-strings and the empty string; trim, then remove one trailing `$`;
route class-prefixed input to `parseASCII`; route input that is entirely
hex characters and longer than 10 to `parseHEX`; otherwise log and
return `null`.  String length is the character count (identical to the
JavaScript UTF-16 length on the ASCII inputs concerned). -/
def parse (input : QJsInput) : Option QResult :=
  match input with
  | .jstr message =>
    if message = "" then none
    else
      let trimmed := jsTrim message
      let cleanedMessage := if jsEndsWith trimmed "$" then jsDropLast trimmed else trimmed
      if jsStartsWith cleanedMessage "+RESP:" ∨ jsStartsWith cleanedMessage "+ACK:" ∨
          jsStartsWith cleanedMessage "+BUFF:" then
        (parseASCII cleanedMessage).map .ascii
      else if (cleanedMessage ≠ "" ∧ cleanedMessage.toList.all isHexChar) ∧
          10 < cleanedMessage.length then
        (parseHEX cleanedMessage).map .hex
      else none
  | _ => none

/-- First field of the 14-digit date string, as a natural number (the
year digits). -/
def dtYear (s : String) : ℕ :=
  digitsVal 10 (jsSubstring s 0 4).toList

/-- Month digits (1-based month) of the 14-digit date string. -/
def dtMonth (s : String) : ℕ :=
  digitsVal 10 (jsSubstring s 4 6).toList

/-- Day digits of the 14-digit date string. -/
def dtDay (s : String) : ℕ :=
  digitsVal 10 (jsSubstring s 6 8).toList

/-- Hour digits of the 14-digit date string. -/
def dtHour (s : String) : ℕ :=
  digitsVal 10 (jsSubstring s 8 10).toList

/-- Minute digits of the 14-digit date string. -/
def dtMinute (s : String) : ℕ :=
  digitsVal 10 (jsSubstring s 10 12).toList

/-- Second digits of the 14-digit date string. -/
def dtSecond (s : String) : ℕ :=
  digitsVal 10 (jsSubstring s 12 14).toList

/-- The cleaned form computed by `QueclinkParser.parse`
(src/parser.js:110): trim, then remove one trailing `$`. -/
def cleanedOf (s : String) : String :=
  let trimmed := jsTrim s
  if jsEndsWith trimmed "$" then jsDropLast trimmed else trimmed

/-- Projection extracting the decoded `iccId` field from a parse result,
through either the plain GTCID layout or the buffered re-dispatch. -/
def iccIdOf : Option QResult → Option String
  | some (.ascii r) =>
    match r.parsedData with
    | some (.gtcid g) => g.iccId
    | some (.buffWrapped _ (.gtcid g)) => g.iccId
    | _ => none
  | _ => none

end QueclinkParser

/-- C2, counterexample: the claim quantifies over every input byte
sequence and requires an escape byte in final position to emit 0x7D; the
`unescape` of src/unnamed/part_000 instead drops it (its final-position
branch has no `else` arm), so on the input consisting of the single byte
0x7D it returns the empty sequence. -/
theorem c2_counterexample :
    Part000.unescape [0x7d] = [] ∧ Part000.unescape [0x7d] ≠ [0x7d] := by
  decide

/-- C2, amended: `ProtocolParser.unescape` (src/protocol-parser.js) obeys
the claimed single-pass case analysis exactly — 0x7D 0x01 emits 0x7D
consuming both bytes, 0x7D 0x02 emits 0x7E consuming both, 0x7D followed
by any other byte emits 0x7D consuming only it, a final 0x7D emits 0x7D,
and any other byte is copied; the duplicate `unescape` of
src/unnamed/part_000 behaves identically except that a 0x7D in final
position emits nothing. -/
theorem c2_thm :
    (∀ rest : List ℕ,
      ProtocolParser.unescape (0x7d :: 0x01 :: rest) = 0x7d :: ProtocolParser.unescape rest) ∧
    (∀ rest : List ℕ,
      ProtocolParser.unescape (0x7d :: 0x02 :: rest) = 0x7e :: ProtocolParser.unescape rest) ∧
    (∀ (y : ℕ) (rest : List ℕ), y ≠ 0x01 → y ≠ 0x02 →
      ProtocolParser.unescape (0x7d :: y :: rest) = 0x7d :: ProtocolParser.unescape (y :: rest)) ∧
    ProtocolParser.unescape [0x7d] = [0x7d] ∧
    (∀ (x : ℕ) (rest : List ℕ), x ≠ 0x7d →
      ProtocolParser.unescape (x :: rest) = x :: ProtocolParser.unescape rest) ∧
    (∀ rest : List ℕ,
      Part000.unescape (0x7d :: 0x01 :: rest) = 0x7d :: Part000.unescape rest) ∧
    (∀ rest : List ℕ,
      Part000.unescape (0x7d :: 0x02 :: rest) = 0x7e :: Part000.unescape rest) ∧
    (∀ (y : ℕ) (rest : List ℕ), y ≠ 0x01 → y ≠ 0x02 →
      Part000.unescape (0x7d :: y :: rest) = 0x7d :: Part000.unescape (y :: rest)) ∧
    (∀ (x : ℕ) (rest : List ℕ), x ≠ 0x7d →
      Part000.unescape (x :: rest) = x :: Part000.unescape rest) ∧
    Part000.unescape [0x7d] = [] := by
  refine ⟨?_, ?_, ?_, by decide, ?_, ?_, ?_, ?_, ?_, by decide⟩
  · intro rest
    simp [ProtocolParser.unescape]
  · intro rest
    simp [ProtocolParser.unescape]
  · intro y rest hy1 hy2
    simp [ProtocolParser.unescape, hy1, hy2]
  · intro x rest hx
    cases rest with
    | nil => simp [ProtocolParser.unescape, hx]
    | cons y r => simp [ProtocolParser.unescape, hx]
  · intro rest
    simp [Part000.unescape]
  · intro rest
    simp [Part000.unescape]
  · intro y rest hy1 hy2
    simp [Part000.unescape, hy1, hy2]
  · intro x rest hx
    cases rest with
    | nil => simp [Part000.unescape, hx]
    | cons y r => simp [Part000.unescape, hx]

/-- C2, witness for the amended theorem at concrete inputs. -/
theorem c2_witness :
    ProtocolParser.unescape [0x7d, 0x05] = 0x7d :: ProtocolParser.unescape [0x05] ∧
    Part000.unescape [0x09, 0x7d] = 0x09 :: Part000.unescape [0x7d] := by
  obtain ⟨h1, h2, h3, h4, h5, h6, h7, h8, h9, h10⟩ := c2_thm
  exact ⟨h3 0x05 [] (by decide) (by decide), h9 0x09 [0x7d] (by decide)⟩

/-- C4, counterexample: on the bytes 00 01 23 45 67 89 the digit string is
"000123456789"; `readBcd` of src/protocol-parser.js strips exactly one
leading zero and yields "00123456789", not the "123456789" asserted by
the claim (stripping all leading zeros, as only the src/unnamed/part_000
variant does, would be needed for that). -/
theorem c4_counterexample :
    ProtocolParser.readBcd [0x00, 0x01, 0x23, 0x45, 0x67, 0x89] 0 6 = "00123456789" ∧
    "00123456789" ≠ "123456789" := by
  constructor
  · rfl
  · decide

/-- C4, amended: `ProtocolParser.readBcd` strips exactly one leading zero
digit (a second leading zero is always retained, so it never strips them
all, and a length-1 digit string is never trimmed), and on the bytes
00 01 23 45 67 89 it yields "00123456789"; the `readBcd` of
src/unnamed/part_000 instead strips every leading zero (keeping a single
final zero when the string is entirely zeros) and yields "123456789" on
those bytes. -/
theorem c4_thm :
    ProtocolParser.readBcd [0x00, 0x01, 0x23, 0x45, 0x67, 0x89] 0 6 = "00123456789" ∧
    Part000.readBcd [0x00, 0x01, 0x23, 0x45, 0x67, 0x89] 0 6 = "123456789" ∧
    (∀ (data : List ℕ) (off len : ℕ),
      (ProtocolParser.bcdDigitList data off len).head? = some '0' →
      1 < (ProtocolParser.bcdDigitList data off len).length →
      ProtocolParser.readBcd data off len =
        String.mk (ProtocolParser.bcdDigitList data off len).tail) ∧
    (∀ (data : List ℕ) (off len : ℕ),
      (ProtocolParser.bcdDigitList data off len).head? ≠ some '0' ∨
          (ProtocolParser.bcdDigitList data off len).length ≤ 1 →
      ProtocolParser.readBcd data off len =
        String.mk (ProtocolParser.bcdDigitList data off len)) ∧
    (∀ (data : List ℕ) (off len : ℕ),
      (ProtocolParser.bcdDigitList data off len).head? = some '0' →
      (ProtocolParser.bcdDigitList data off len).tail.head? = some '0' →
      (ProtocolParser.readBcd data off len).toList.head? = some '0') := by
  refine ⟨by rfl, by rfl, ?_, ?_, ?_⟩
  · intro data off len h0 hlen
    rw [ProtocolParser.readBcd, if_pos ⟨h0, hlen⟩]
  · intro data off len h
    rw [ProtocolParser.readBcd, if_neg]
    intro hc
    rcases h with h | h
    · exact h hc.1
    · omega
  · intro data off len h0 h1
    cases hl : ProtocolParser.bcdDigitList data off len with
    | nil => rw [hl] at h0; simp at h0
    | cons a t =>
      rw [hl] at h0 h1
      cases t with
      | nil => simp at h1
      | cons b t2 =>
        simp only [List.head?, Option.some.injEq] at h0
        simp only [List.tail_cons, List.head?, Option.some.injEq] at h1
        rw [ProtocolParser.readBcd, hl]
        rw [if_pos]
        · simp [h1]
        · constructor
          · simp [h0]
          · simp

/-- C4, witness for the amended theorem at a concrete input. -/
theorem c4_witness :
    ProtocolParser.readBcd [0x00, 0x13] 0 2 = String.mk ['0', '1', '3'] ∧
    (ProtocolParser.readBcd [0x00, 0x03] 0 2).toList.head? = some '0' := by
  obtain ⟨h1, h2, h3, h4, h5⟩ := c4_thm
  constructor
  · have := h3 [0x00, 0x13] 0 2 (by rfl) (by decide)
    rw [this]
    rfl
  · exact h5 [0x00, 0x03] 0 2 (by rfl) (by rfl)

/-- C8, confirmed: the RSSI-to-dBm mapping of
`QueclinkParser._mapCsqRssiToDbm` takes the claimed values at codes 0, 1,
2, 30, 31, 99, follows the rounded linear interpolation
−109 + (code − 2)·56/28 dBm on 2–30 (the quotient is exact, so rounding
is the identity), and returns the explicit marker "Invalid RSSI" on every
other integer code. -/
theorem c8_thm :
    QueclinkParser.mapCsqRssiToDbm 0 = "<-113 dBm" ∧
    QueclinkParser.mapCsqRssiToDbm 1 = "-111 dBm" ∧
    QueclinkParser.mapCsqRssiToDbm 2 = "-109 dBm" ∧
    QueclinkParser.mapCsqRssiToDbm 30 = "-53 dBm" ∧
    QueclinkParser.mapCsqRssiToDbm 31 = ">-51 dBm" ∧
    QueclinkParser.mapCsqRssiToDbm 99 = "Unknown" ∧
    (∀ c : ℤ, 2 ≤ c → c ≤ 30 →
      QueclinkParser.mapCsqRssiToDbm c = toString (-109 + (c - 2) * 56 / 28) ++ " dBm") ∧
    (∀ c : ℤ, ¬ (0 ≤ c ∧ c ≤ 31) → c ≠ 99 →
      QueclinkParser.mapCsqRssiToDbm c = "Invalid RSSI") := by
  refine ⟨by rfl, by rfl, by rfl, by rfl, by rfl, by rfl, ?_, ?_⟩
  · intro c h2 h30
    have hdiv : (c - 2) * 56 / 28 = (c - 2) * 2 := by
      have h : (c - 2) * 56 = (c - 2) * 2 * 28 := by ring
      rw [h]
      exact Int.mul_ediv_cancel _ (by norm_num)
    rw [hdiv]
    rw [QueclinkParser.mapCsqRssiToDbm, if_neg (by omega), if_neg (by omega),
      if_pos ⟨h2, h30⟩]
  · intro c hrange h99
    rw [QueclinkParser.mapCsqRssiToDbm, if_neg (by omega), if_neg (by omega),
      if_neg (by omega), if_neg (by omega), if_neg h99]

/-- C8, witness for the universal parts at concrete codes. -/
theorem c8_witness :
    QueclinkParser.mapCsqRssiToDbm 7 = toString (-109 + ((7 : ℤ) - 2) * 56 / 28) ++ " dBm" ∧
    QueclinkParser.mapCsqRssiToDbm 45 = "Invalid RSSI" := by
  obtain ⟨h0, h1, h2, h30, h31, h99, hlin, hinv⟩ := c8_thm
  exact ⟨hlin 7 (by decide) (by decide), hinv 45 (by decide) (by decide)⟩

/-- Last element via `getD` agrees with `getLast?` on a non-empty list
(models a JavaScript read at index `length - 1`). -/
theorem list_getD_last (l : List ℕ) (h : l ≠ []) :
    some (l.getD (l.length - 1) 0) = l.getLast? := by
  induction l with
  | nil => exact absurd rfl h
  | cons x t ih =>
    cases t with
    | nil => rfl
    | cons y t2 =>
      have hlen : (x :: y :: t2).length - 1 = ((y :: t2).length - 1) + 1 := by
        simp
      rw [hlen, List.getD_cons_succ, List.getLast?_cons_cons]
      exact ih (by simp)

/-- The checksum conjunct of `parseAccepts` (a `getD` read) and of
`frameValidSpec` (a `getLast?` read) agree once guarded by the
minimum-length test. -/
theorem checksum_conjunct_eq (un : List ℕ) :
    (decide (13 ≤ un.length) &&
      decide (un.getD (un.length - 1) 0 =
        ProtocolParser.calculateChecksum (un.take (un.length - 1)))) =
    (decide (13 ≤ un.length) &&
      decide (un.getLast? =
        some (ProtocolParser.calculateChecksum (un.take (un.length - 1))))) := by
  by_cases h : 13 ≤ un.length
  · have hne : un ≠ [] := by
      intro he
      rw [he] at h
      simp at h
    have hlast := list_getD_last un hne
    congr 1
    apply decide_eq_decide.mpr
    constructor
    · intro hgd
      rw [← hlast, hgd]
    · intro hgl
      have : some (un.getD (un.length - 1) 0) =
          some (ProtocolParser.calculateChecksum (un.take (un.length - 1))) := by
        rw [hlast, hgl]
      exact Option.some_injective _ this
  · simp [h]

/-- The guard conjunction of `ProtocolParser.parse` coincides with the
frame-validity contract stated in the specification's words. -/
theorem parseAccepts_eq_frameValidSpec (raw : List ℕ) :
    ProtocolParser.parseAccepts raw = ProtocolParser.frameValidSpec raw := by
  match raw with
  | [] => rfl
  | [a] =>
    simp [ProtocolParser.parseAccepts, ProtocolParser.frameValidSpec,
      ProtocolParser.unescape]
  | a :: b :: l =>
    have hne : a :: b :: l ≠ [] := by simp
    have hlast := list_getD_last (a :: b :: l) hne
    simp only [ProtocolParser.parseAccepts, ProtocolParser.frameValidSpec]
    rw [checksum_conjunct_eq]
    congr 1
    have h2 : decide (2 ≤ (a :: b :: l).length) = true := by simp
    rw [h2]
    simp only [Bool.true_and]
    congr 1
    · apply decide_eq_decide.mpr
      simp
    · apply decide_eq_decide.mpr
      constructor
      · intro hgd
        rw [← hlast, hgd]
      · intro hgl
        have := hlast.trans hgl
        exact Option.some_injective _ this

/-- A frame failing the guard conjunction is rejected by one of the three
`return null` branches of `parse`. -/
theorem parse_none_of_not_accepts (raw : List ℕ)
    (h : ProtocolParser.parseAccepts raw = false) :
    ProtocolParser.parse raw = none := by
  simp only [ProtocolParser.parse]
  split
  · rfl
  · rename_i hguard
    push_neg at hguard
    obtain ⟨hlen, h0, hlast⟩ := hguard
    split
    · rfl
    · rename_i hun
      push_neg at hun
      split
      · rfl
      · rename_i hck
        push_neg at hck
        exfalso
        rw [ProtocolParser.parseAccepts] at h
        simp only [Bool.and_eq_false_iff, decide_eq_false_iff_not] at h
        rcases h with ((h | h) | h) | (h | h)
        · omega
        · exact h h0
        · exact h hlast
        · exact h hun
        · exact h hck

/-- On an accepted frame, `parse` returns exactly the body decode of the
decoded header. -/
theorem parse_eq_of_accepts (raw : List ℕ)
    (h : ProtocolParser.parseAccepts raw = true) :
    ProtocolParser.parse raw =
      ProtocolParser.parseMessageBody (ProtocolParser.frameHeader raw)
        (ProtocolParser.frameBody raw) := by
  rw [ProtocolParser.parseAccepts] at h
  simp only [Bool.and_eq_true, decide_eq_true_eq] at h
  obtain ⟨⟨⟨hlen, h0⟩, hlast⟩, hun, hck⟩ := h
  simp only [ProtocolParser.parse]
  rw [if_neg, if_neg (by omega), if_neg (by omega)]
  · rfl
  · push_neg
    exact ⟨by omega, h0, hlast⟩

/-- C1, counterexample: the claim covers the `parse` of
src/unnamed/part_000 as well, and requires that a frame violation makes
decoding fail with no report and no escaping exception; that `parse`
instead throws an `Error` (uncaught by its caller,
src/unnamed/part_000:70) on the marker check already for the input
"00". -/
theorem c1_counterexample :
    Part000.parse "00" = Except.error "Invalid message framing." := by
  rfl

/-- C1, amended: for `ProtocolParser.parse` (src/protocol-parser.js:137-161)
the claim holds as stated — the guard conjunction of `parse` accepts a
byte sequence exactly when the specification's frame-validity contract
holds (markers, unescaped length at least 13, XOR checksum), and any
violation returns `null` (the embedding is a total function: the source
performs only total operations on its `Uint8Array` and never throws).
The duplicate `parse` of src/unnamed/part_000 instead throws an `Error`
on each violation. -/
theorem c1_thm :
    ∀ rawMessage : List ℕ,
      ProtocolParser.parseAccepts rawMessage = ProtocolParser.frameValidSpec rawMessage ∧
      (ProtocolParser.frameValidSpec rawMessage = false →
        ProtocolParser.parse rawMessage = none) := by
  intro raw
  refine ⟨parseAccepts_eq_frameValidSpec raw, fun h => ?_⟩
  apply parse_none_of_not_accepts
  rw [parseAccepts_eq_frameValidSpec]
  exact h

/-- C1, witness: a frame with a corrupted closing marker is rejected with
no report. -/
theorem c1_witness :
    ProtocolParser.parseAccepts [0x7e, 0x00] = ProtocolParser.frameValidSpec [0x7e, 0x00] ∧
    ProtocolParser.parse [0x7e, 0x00] = none :=
  ⟨(c1_thm [0x7e, 0x00]).1, (c1_thm [0x7e, 0x00]).2 (by decide)⟩

/-- C5, counterexample: the frame 7E 02 00 00 00 00 00 00 00 00 00 00 01
03 7E is validly framed and checksummed with the unregistered command id
0x0200, yet `parse` returns `null` — no header-only result is produced,
and the output is identical to that for the corrupted frame obtained by
replacing its checksum byte 0x03 with 0x04, contrary to the claim that
the two cases are distinguishable. -/
theorem c5_counterexample :
    ProtocolParser.parseAccepts
        [0x7e, 0x02, 0x00, 0x00, 0x00, 0, 0, 0, 0, 0, 0, 0x00, 0x01, 0x03, 0x7e] = true ∧
    ProtocolParser.parse
        [0x7e, 0x02, 0x00, 0x00, 0x00, 0, 0, 0, 0, 0, 0, 0x00, 0x01, 0x03, 0x7e] = none ∧
    ProtocolParser.parseAccepts
        [0x7e, 0x02, 0x00, 0x00, 0x00, 0, 0, 0, 0, 0, 0, 0x00, 0x01, 0x04, 0x7e] = false ∧
    ProtocolParser.parse
        [0x7e, 0x02, 0x00, 0x00, 0x00, 0, 0, 0, 0, 0, 0, 0x00, 0x01, 0x04, 0x7e] = none := by
  refine ⟨by decide, ?_, by decide, ?_⟩ <;> rfl

/-- C5, amended: a validly framed and checksummed frame whose command id
has no registered body decoder passes every validation check of `parse`
without error, but `parse` then returns `null` (the `default` branch of
`parseMessageBody`), discarding the decoded header; at the `parse`
interface this `null` is indistinguishable from a decode failure. -/
theorem c5_thm :
    ∀ rawMessage : List ℕ,
      ProtocolParser.parseAccepts rawMessage = true →
      (ProtocolParser.frameHeader rawMessage).messageId ≠ 0x0100 →
      ProtocolParser.parse rawMessage = none := by
  intro raw hacc hid
  rw [parse_eq_of_accepts raw hacc]
  rw [ProtocolParser.parseMessageBody, if_neg hid]

/-- Copy step of `unescape` for a non-escape byte. -/
theorem unescape_cons_ne (b : ℕ) (l : List ℕ) (h : b ≠ 0x7d) :
    ProtocolParser.unescape (b :: l) = b :: ProtocolParser.unescape l := by
  cases l with
  | nil => simp [ProtocolParser.unescape, h]
  | cons y r => simp [ProtocolParser.unescape, h]

/-- Escape-sequence step of `unescape` for an escaped 0x7D. -/
theorem unescape_esc1 (l : List ℕ) :
    ProtocolParser.unescape (0x7d :: 0x01 :: l) = 0x7d :: ProtocolParser.unescape l := by
  simp [ProtocolParser.unescape]

/-- Escape-sequence step of `unescape` for an escaped 0x7E. -/
theorem unescape_esc2 (l : List ℕ) :
    ProtocolParser.unescape (0x7d :: 0x02 :: l) = 0x7e :: ProtocolParser.unescape l := by
  simp [ProtocolParser.unescape]

/-- Byte-stuffing round trip: unstuffing a stuffed sequence restores it
(spec.md §8, first testable property). -/
theorem unescape_escapeBuffer (x : List ℕ) :
    ProtocolParser.unescape (MessageHandler.escapeBuffer x) = x := by
  induction x with
  | nil => rfl
  | cons b rest ih =>
    by_cases h7e : b = 0x7e
    · subst h7e
      rw [MessageHandler.escapeBuffer, if_pos rfl, unescape_esc2, ih]
    · by_cases h7d : b = 0x7d
      · subst h7d
        rw [MessageHandler.escapeBuffer, if_neg (by decide), if_pos rfl, unescape_esc1, ih]
      · rw [MessageHandler.escapeBuffer, if_neg h7e, if_neg h7d, unescape_cons_ne b _ h7d, ih]

/-- A frame consisting of a payload, its XOR checksum, byte-stuffing and
the two markers passes every validation check of `ProtocolParser.parse`. -/
theorem accepts_marker_checksum_frame (full : List ℕ) (hlen : 12 ≤ full.length) :
    ProtocolParser.parseAccepts
      (0x7e :: MessageHandler.escapeBuffer (full ++ [ProtocolParser.calculateChecksum full])
        ++ [0x7e]) = true := by
  set cs := ProtocolParser.calculateChecksum full with hcs
  set E := MessageHandler.escapeBuffer (full ++ [cs]) with hE
  have hraw : (0x7e :: E ++ [0x7e] : List ℕ) = (0x7e :: E) ++ [0x7e] := by
    simp
  have hpayload :
      ((0x7e :: E ++ [0x7e] : List ℕ).drop 1).take ((0x7e :: E ++ [0x7e] : List ℕ).length - 2)
        = E := by
    have h1 : (0x7e :: E ++ [0x7e] : List ℕ).drop 1 = E ++ [0x7e] := by
      simp
    have h2 : (0x7e :: E ++ [0x7e] : List ℕ).length - 2 = E.length := by
      simp
    rw [h1, h2]
    exact List.take_left E [0x7e]
  have hun : ProtocolParser.unescape
      (((0x7e :: E ++ [0x7e] : List ℕ).drop 1).take ((0x7e :: E ++ [0x7e] : List ℕ).length - 2))
        = full ++ [cs] := by
    rw [hpayload, hE]
    exact unescape_escapeBuffer (full ++ [cs])
  simp only [ProtocolParser.parseAccepts, Bool.and_eq_true, decide_eq_true_eq]
  rw [hun]
  refine ⟨⟨⟨?_, ?_⟩, ?_⟩, ?_, ?_⟩
  · simp
  · rfl
  · have hlast := list_getD_last (0x7e :: E ++ [0x7e]) (by simp)
    have hgl : (0x7e :: E ++ [0x7e] : List ℕ).getLast? = some 0x7e := by
      rw [hraw]
      exact List.getLast?_concat _
    exact Option.some_injective _ (hlast.trans hgl)
  · simp
    omega
  · have hfl : (full ++ [cs]).length - 1 = full.length := by
      simp
    have htake : (full ++ [cs]).take ((full ++ [cs]).length - 1) = full := by
      rw [hfl]
      exact List.take_left full [cs]
    have hgd := list_getD_last (full ++ [cs]) (by simp)
    have hgl : (full ++ [cs]).getLast? = some cs := List.getLast?_concat _
    rw [htake]
    exact Option.some_injective _ (hgd.trans hgl)

/-- C3, confirmed: every acknowledgement frame produced by
`MessageHandler.sendResponse` (header, body, XOR checksum, byte-stuffing,
frame markers) passes the binary decoder's marker check, minimum-length
check and checksum check.  The bounds on the id, serial number and body
length are the domain on which the JavaScript `writeUInt16BE` calls do
not throw; the byte bounds are the `Uint8Array`/`Buffer` value range. -/
theorem c3_thm :
    ∀ (messageId : ℕ) (simBuffer : List ℕ) (serialNo : ℕ) (bodyBuffer : List ℕ),
      messageId < 65536 → serialNo < 65536 → bodyBuffer.length < 65536 →
      (∀ b ∈ simBuffer, b < 256) → (∀ b ∈ bodyBuffer, b < 256) →
      ProtocolParser.parseAccepts
          (MessageHandler.sendResponse messageId simBuffer serialNo bodyBuffer) = true ∧
      ProtocolParser.frameValidSpec
          (MessageHandler.sendResponse messageId simBuffer serialNo bodyBuffer) = true := by
  intro messageId simBuffer serialNo bodyBuffer hmsg hserial hblen hsim hbody
  have key : ProtocolParser.parseAccepts
      (MessageHandler.sendResponse messageId simBuffer serialNo bodyBuffer) = true := by
    show ProtocolParser.parseAccepts
      (0x7e :: MessageHandler.escapeBuffer
        ((MessageHandler.word16 messageId ++ MessageHandler.word16 bodyBuffer.length ++
          (simBuffer.take 6 ++ List.replicate (6 - simBuffer.length) 0) ++
          MessageHandler.word16 serialNo ++ bodyBuffer) ++
         [ProtocolParser.calculateChecksum
           (MessageHandler.word16 messageId ++ MessageHandler.word16 bodyBuffer.length ++
            (simBuffer.take 6 ++ List.replicate (6 - simBuffer.length) 0) ++
            MessageHandler.word16 serialNo ++ bodyBuffer)]) ++ [0x7e]) = true
    apply accepts_marker_checksum_frame
    simp [MessageHandler.word16]
    omega
  exact ⟨key, by rw [← parseAccepts_eq_frameValidSpec]; exact key⟩

/-- C3, witness: a concrete registration acknowledgement validates. -/
theorem c3_witness :
    ProtocolParser.parseAccepts
        (MessageHandler.sendResponse 0x8100 [0x04, 0x80, 0x50, 0x02, 0x21, 0x71] 28
          [0x00, 0x1c, 0x00, 0x31, 0x32, 0x33, 0x34, 0x35, 0x36]) = true ∧
    ProtocolParser.frameValidSpec
        (MessageHandler.sendResponse 0x8100 [0x04, 0x80, 0x50, 0x02, 0x21, 0x71] 28
          [0x00, 0x1c, 0x00, 0x31, 0x32, 0x33, 0x34, 0x35, 0x36]) = true :=
  c3_thm 0x8100 [0x04, 0x80, 0x50, 0x02, 0x21, 0x71] 28
    [0x00, 0x1c, 0x00, 0x31, 0x32, 0x33, 0x34, 0x35, 0x36]
    (by decide) (by decide) (by decide) (by decide) (by decide)

/-- A character with a decimal-digit code is not JavaScript whitespace. -/
theorem jsIsSpace_eq_false_of_digit (c : Char)
    (h : QueclinkParser.isDigitCharCode c = true) :
    QueclinkParser.jsIsSpace c = false := by
  simp only [QueclinkParser.isDigitCharCode, Bool.and_eq_true, decide_eq_true_eq] at h
  simp only [QueclinkParser.jsIsSpace, Bool.or_eq_false_iff, decide_eq_false_iff_not]
  refine ⟨⟨⟨⟨⟨?_, ?_⟩, ?_⟩, ?_⟩, ?_⟩, ?_⟩ <;>
    · intro he
      subst he
      exact absurd h (by decide)

/-- A character with a decimal-digit code is not a sign character. -/
theorem digit_ne_sign (c : Char) (h : QueclinkParser.isDigitCharCode c = true) :
    c ≠ '-' ∧ c ≠ '+' := by
  simp only [QueclinkParser.isDigitCharCode, Bool.and_eq_true, decide_eq_true_eq] at h
  constructor <;>
    · intro he
      subst he
      exact absurd h (by decide)

/-- The digit filter of `jsParseInt` at radix 10 accepts every
decimal-digit character. -/
theorem parseIntPred_digit (c : Char) (h : QueclinkParser.isDigitCharCode c = true) :
    ((QueclinkParser.digitVal c).map fun v => decide (v < 10)).getD false = true := by
  simp only [QueclinkParser.isDigitCharCode, Bool.and_eq_true, decide_eq_true_eq] at h
  rw [QueclinkParser.digitVal, if_pos h]
  simp
  omega

/-- A list of decimal-digit characters is taken whole by the digit
filter. -/
theorem takeWhile_digits (l : List Char)
    (h : ∀ c ∈ l, QueclinkParser.isDigitCharCode c = true) :
    (l.takeWhile fun c =>
      ((QueclinkParser.digitVal c).map fun v => decide (v < 10)).getD false) = l := by
  induction l with
  | nil => rfl
  | cons c t ih =>
    rw [List.takeWhile_cons, if_pos]
    · rw [ih fun x hx => h x (List.mem_cons_of_mem c hx)]
    · exact parseIntPred_digit c (h c (List.mem_cons_self c t))

/-- JavaScript `parseInt(s, 10)` on a non-empty all-digit string returns
the value of its digits. -/
theorem jsParseInt_digits (l : List Char) (hne : l ≠ [])
    (hd : ∀ c ∈ l, QueclinkParser.isDigitCharCode c = true) :
    QueclinkParser.jsParseInt 10 (String.mk l) =
      some ((QueclinkParser.digitsVal 10 l : ℕ) : ℤ) := by
  obtain ⟨c, t, rfl⟩ := List.exists_cons_of_ne_nil hne
  have hc := hd c (List.mem_cons_self c t)
  have hsp : QueclinkParser.jsIsSpace c = false := jsIsSpace_eq_false_of_digit c hc
  obtain ⟨hminus, hplus⟩ := digit_ne_sign c hc
  have htl : (String.mk (c :: t)).toList = c :: t := rfl
  simp [QueclinkParser.jsParseInt, htl, List.dropWhile_cons, hsp, hminus, hplus,
    takeWhile_digits (c :: t) hd]

/-- `jsParseInt` of an in-range all-digit substring of a digit string
returns the value of the selected digits. -/
theorem jsParseInt_jsSubstring (s : String) (a b : ℕ)
    (hall : s.toList.all QueclinkParser.isDigitCharCode = true)
    (hab : a < b) (hb : b ≤ s.toList.length) :
    QueclinkParser.jsParseInt 10 (QueclinkParser.jsSubstring s a b) =
      some ((QueclinkParser.digitsVal 10 (QueclinkParser.jsSubstring s a b).toList : ℕ) : ℤ) := by
  have hne : (s.toList.drop a).take (b - a) ≠ [] := by
    have hlt : 0 < ((s.toList.drop a).take (b - a)).length := by
      rw [List.length_take, List.length_drop]
      omega
    intro he
    rw [he] at hlt
    simp at hlt
  have hd : ∀ c ∈ (s.toList.drop a).take (b - a),
      QueclinkParser.isDigitCharCode c = true := by
    intro c hcmem
    have hmem : c ∈ s.toList :=
      List.mem_of_mem_drop (List.mem_of_mem_take hcmem)
    exact List.all_eq_true.mp hall c hmem
  exact jsParseInt_digits _ hne hd

/-- Every month length is positive (at least 28 days). -/
theorem daysInMonthN_pos (y m : ℤ) : 0 < QueclinkParser.daysInMonthN y m := by
  rw [QueclinkParser.daysInMonthN]
  split
  · split <;> omega
  · split <;> omega

/-- `nextMonth` keeps the 0-indexed month in range. -/
theorem nextMonth_range (y m : ℤ) (hm0 : 0 ≤ m) (hm1 : m ≤ 11) :
    0 ≤ (QueclinkParser.nextMonth y m).2 ∧ (QueclinkParser.nextMonth y m).2 ≤ 11 := by
  rw [QueclinkParser.nextMonth]
  split
  · simp
  · constructor
    · simp
      omega
    · simp
      omega

/-- `prevMonth` keeps the 0-indexed month in range. -/
theorem prevMonth_range (y m : ℤ) (hm0 : 0 ≤ m) (hm1 : m ≤ 11) :
    0 ≤ (QueclinkParser.prevMonth y m).2 ∧ (QueclinkParser.prevMonth y m).2 ≤ 11 := by
  rw [QueclinkParser.prevMonth]
  split
  · simp
  · constructor
    · simp
      omega
    · simp
      omega

/-- Months stay in range 0-11 and days in range 1 to the month length
under forward day normalisation, given sufficient fuel. -/
theorem addDaysFwdAux_canon (fuel : ℕ) :
    ∀ (n : ℕ) (y m : ℤ), n < fuel → 0 ≤ m → m ≤ 11 →
      0 ≤ (QueclinkParser.addDaysFwdAux fuel y m n).2.1 ∧
      (QueclinkParser.addDaysFwdAux fuel y m n).2.1 ≤ 11 ∧
      1 ≤ (QueclinkParser.addDaysFwdAux fuel y m n).2.2 ∧
      (QueclinkParser.addDaysFwdAux fuel y m n).2.2 ≤
        QueclinkParser.daysInMonthN (QueclinkParser.addDaysFwdAux fuel y m n).1
          (QueclinkParser.addDaysFwdAux fuel y m n).2.1 := by
  induction fuel with
  | zero =>
    intro n y m hn
    omega
  | succ fuel ih =>
    intro n y m hn hm0 hm1
    have hpos := daysInMonthN_pos y m
    rw [QueclinkParser.addDaysFwdAux]
    split
    · rename_i hlt
      dsimp only
      refine ⟨hm0, hm1, by omega, by omega⟩
    · rename_i hge
      obtain ⟨hnext0, hnext1⟩ := nextMonth_range y m hm0 hm1
      exact ih (n - QueclinkParser.daysInMonthN y m)
        (QueclinkParser.nextMonth y m).1 (QueclinkParser.nextMonth y m).2
        (by omega) hnext0 hnext1

/-- Canonicity of `addDaysFwd`. -/
theorem addDaysFwd_canon (n : ℕ) (y m : ℤ) (hm0 : 0 ≤ m) (hm1 : m ≤ 11) :
    0 ≤ (QueclinkParser.addDaysFwd y m n).2.1 ∧
    (QueclinkParser.addDaysFwd y m n).2.1 ≤ 11 ∧
    1 ≤ (QueclinkParser.addDaysFwd y m n).2.2 ∧
    (QueclinkParser.addDaysFwd y m n).2.2 ≤
      QueclinkParser.daysInMonthN (QueclinkParser.addDaysFwd y m n).1
        (QueclinkParser.addDaysFwd y m n).2.1 :=
  addDaysFwdAux_canon (n + 1) n y m (by omega) hm0 hm1

/-- Months stay in range 0-11 and days in range 1 to the month length
under backward day normalisation of at least one day, given sufficient
fuel. -/
theorem addDaysBwdAux_canon (fuel : ℕ) :
    ∀ (k : ℕ) (y m : ℤ), k < fuel → 1 ≤ k → 0 ≤ m → m ≤ 11 →
      0 ≤ (QueclinkParser.addDaysBwdAux fuel y m k).2.1 ∧
      (QueclinkParser.addDaysBwdAux fuel y m k).2.1 ≤ 11 ∧
      1 ≤ (QueclinkParser.addDaysBwdAux fuel y m k).2.2 ∧
      (QueclinkParser.addDaysBwdAux fuel y m k).2.2 ≤
        QueclinkParser.daysInMonthN (QueclinkParser.addDaysBwdAux fuel y m k).1
          (QueclinkParser.addDaysBwdAux fuel y m k).2.1 := by
  induction fuel with
  | zero =>
    intro k y m hk
    omega
  | succ fuel ih =>
    intro k y m hfuel hk hm0 hm1
    obtain ⟨hprev0, hprev1⟩ := prevMonth_range y m hm0 hm1
    have hpos := daysInMonthN_pos (QueclinkParser.prevMonth y m).1
      (QueclinkParser.prevMonth y m).2
    rw [QueclinkParser.addDaysBwdAux]
    split
    · rename_i hle
      dsimp only
      refine ⟨hprev0, hprev1, by omega, by omega⟩
    · rename_i hgt
      exact ih (k - QueclinkParser.daysInMonthN (QueclinkParser.prevMonth y m).1
          (QueclinkParser.prevMonth y m).2)
        (QueclinkParser.prevMonth y m).1 (QueclinkParser.prevMonth y m).2
        (by omega) (by omega) hprev0 hprev1

/-- Canonicity of `addDaysBwd` for at least one borrowed day. -/
theorem addDaysBwd_canon (k : ℕ) (y m : ℤ) (hk : 1 ≤ k) (hm0 : 0 ≤ m) (hm1 : m ≤ 11) :
    0 ≤ (QueclinkParser.addDaysBwd y m k).2.1 ∧
    (QueclinkParser.addDaysBwd y m k).2.1 ≤ 11 ∧
    1 ≤ (QueclinkParser.addDaysBwd y m k).2.2 ∧
    (QueclinkParser.addDaysBwd y m k).2.2 ≤
      QueclinkParser.daysInMonthN (QueclinkParser.addDaysBwd y m k).1
        (QueclinkParser.addDaysBwd y m k).2.1 :=
  addDaysBwdAux_canon (k + 1) k y m (by omega) hk hm0 hm1

/-- The civil components produced by the `Date` constructor are always
canonical: the month is in 0-11 and the day within its month. -/
theorem jsDateCivil_canon (year month day hours minutes seconds : ℤ) :
    0 ≤ (QueclinkParser.jsDateCivil year month day hours minutes seconds).2.1 ∧
    (QueclinkParser.jsDateCivil year month day hours minutes seconds).2.1 ≤ 11 ∧
    1 ≤ (QueclinkParser.jsDateCivil year month day hours minutes seconds).2.2 ∧
    (QueclinkParser.jsDateCivil year month day hours minutes seconds).2.2 ≤
      QueclinkParser.daysInMonthN
        (QueclinkParser.jsDateCivil year month day hours minutes seconds).1
        (QueclinkParser.jsDateCivil year month day hours minutes seconds).2.1 := by
  simp only [QueclinkParser.jsDateCivil]
  have hm0 : 0 ≤ month % 12 := by omega
  have hm1 : month % 12 ≤ 11 := by omega
  split
  · exact addDaysFwd_canon _ _ _ hm0 hm1
  · rename_i hneg
    apply addDaysBwd_canon _ _ _ _ hm0 hm1
    omega

/-- The `Date` constructor is the identity on an in-range civil
date-time with a four-digit year of at least 100. -/
theorem jsNewDate_valid (y mo d hh mi ss : ℤ)
    (hy : 100 ≤ y) (hmo1 : 1 ≤ mo) (hmo2 : mo ≤ 12) (hd1 : 1 ≤ d)
    (hd2 : d ≤ QueclinkParser.daysInMonthN y (mo - 1))
    (hh0 : 0 ≤ hh) (hh2 : hh ≤ 23) (hmi0 : 0 ≤ mi) (hmi2 : mi ≤ 59)
    (hss0 : 0 ≤ ss) (hss2 : ss ≤ 59) :
    QueclinkParser.jsNewDate y (mo - 1) d hh mi ss =
      { year := y, month := mo - 1, day := d, hour := hh, minute := mi, second := ss } := by
  have hcarry : (hh * 3600 + mi * 60 + ss) / 86400 = 0 := by omega
  have hdiv : (mo - 1) / 12 = 0 := by omega
  have hmod : (mo - 1) % 12 = mo - 1 := by omega
  have hciv : QueclinkParser.jsDateCivil y (mo - 1) d hh mi ss = (y, mo - 1, d) := by
    simp only [QueclinkParser.jsDateCivil]
    rw [if_neg (show ¬(0 ≤ y ∧ y ≤ 99) by omega)]
    rw [hcarry, hdiv, hmod]
    rw [show y + 0 = y from add_zero y, show d - 1 + 0 = d - 1 from add_zero _]
    rw [if_pos (show (0:ℤ) ≤ d - 1 by omega)]
    unfold QueclinkParser.addDaysFwd QueclinkParser.addDaysFwdAux
    rw [if_pos (show (d - 1).toNat < QueclinkParser.daysInMonthN y (mo - 1) by omega)]
    have hback : ((d - 1).toNat : ℤ) + 1 = d := by omega
    rw [hback]
  simp only [QueclinkParser.jsNewDate, hciv]
  have htod : (hh * 3600 + mi * 60 + ss) % 86400 = hh * 3600 + mi * 60 + ss := by omega
  rw [htod]
  have hhour : (hh * 3600 + mi * 60 + ss) / 3600 = hh := by omega
  have hminute : ((hh * 3600 + mi * 60 + ss) % 3600) / 60 = mi := by omega
  have hsecond : (hh * 3600 + mi * 60 + ss) % 60 = ss := by omega
  rw [hhour, hminute, hsecond]

/-- The `getFullYear` getter reads the first civil component. -/
theorem jsNewDate_year (a b c d e f : ℤ) :
    (QueclinkParser.jsNewDate a b c d e f).year =
      (QueclinkParser.jsDateCivil a b c d e f).1 := rfl

/-- The `getMonth` getter reads the second civil component. -/
theorem jsNewDate_month (a b c d e f : ℤ) :
    (QueclinkParser.jsNewDate a b c d e f).month =
      (QueclinkParser.jsDateCivil a b c d e f).2.1 := rfl

/-- The `getDate` getter reads the third civil component. -/
theorem jsNewDate_day (a b c d e f : ℤ) :
    (QueclinkParser.jsNewDate a b c d e f).day =
      (QueclinkParser.jsDateCivil a b c d e f).2.2 := rfl

/-- C9, counterexample: "00500115120000" denotes the real calendar date
0050-01-15 12:00:00, but `_parseDateTime` returns `null` for it: the
`Date` constructor maps the parsed year 50 to 1950, and the
`getFullYear() === year` validation then fails.  This refutes the
claim's assertion that every valid 14-digit string decodes to the
corresponding date. -/
theorem c9_counterexample :
    QueclinkParser.realCalendarDate 50 1 15 ∧
    QueclinkParser.parseDateTime "00500115120000" = none := by
  constructor
  · show (1:ℤ) ≤ 1 ∧ (1:ℤ) ≤ 12 ∧ (1:ℤ) ≤ 15 ∧ (15:ℤ) ≤ QueclinkParser.daysInMonthN 50 0
    refine ⟨le_refl 1, by norm_num, by norm_num, ?_⟩
    rw [show QueclinkParser.daysInMonthN 50 0 = 31 from rfl]
    norm_num
  · rfl

/-- C9, amended: `_parseDateTime` decodes "20230230120000" (Feb 30) to
`null`, and more generally every 14-digit string whose year, month and
day digits do not denote a real calendar date decodes to `null`, never
to a rolled-over date (the normalised components of the constructed
`Date` are always canonical, so they can only reproduce the parsed
numbers when those form a real date); a valid 14-digit string with year
at least 0100 and in-range time fields decodes to exactly the denoted
date.  For years 0000-0099 the constructor's two-digit-year rule shifts
the year by 1900 and validation fails, so those valid dates also decode
to `null`. -/
theorem c9_thm :
    QueclinkParser.parseDateTime "20230230120000" = none ∧
    (∀ s : String, s.length = 14 → s.toList.all QueclinkParser.isDigitCharCode = true →
      ¬ QueclinkParser.realCalendarDate (QueclinkParser.dtYear s) (QueclinkParser.dtMonth s)
        (QueclinkParser.dtDay s) →
      QueclinkParser.parseDateTime s = none) ∧
    (∀ s : String, s.length = 14 → s.toList.all QueclinkParser.isDigitCharCode = true →
      100 ≤ QueclinkParser.dtYear s →
      QueclinkParser.realCalendarDate (QueclinkParser.dtYear s) (QueclinkParser.dtMonth s)
        (QueclinkParser.dtDay s) →
      QueclinkParser.dtHour s ≤ 23 → QueclinkParser.dtMinute s ≤ 59 →
      QueclinkParser.dtSecond s ≤ 59 →
      QueclinkParser.parseDateTime s =
        some
          { year := (QueclinkParser.dtYear s : ℤ)
            month := (QueclinkParser.dtMonth s : ℤ) - 1
            day := (QueclinkParser.dtDay s : ℤ)
            hour := (QueclinkParser.dtHour s : ℤ)
            minute := (QueclinkParser.dtMinute s : ℤ)
            second := (QueclinkParser.dtSecond s : ℤ) }) := by
  refine ⟨by rfl, ?_, ?_⟩
  · intro s h14 hall hreal
    have h14l : s.toList.length = 14 := h14
    have hne : s ≠ "" := by
      intro he
      rw [he] at h14
      simp at h14
    unfold QueclinkParser.parseDateTime
    rw [if_pos ⟨hne, h14⟩]
    rw [jsParseInt_jsSubstring s 0 4 hall (by omega) (by omega),
      jsParseInt_jsSubstring s 4 6 hall (by omega) (by omega),
      jsParseInt_jsSubstring s 6 8 hall (by omega) (by omega),
      jsParseInt_jsSubstring s 8 10 hall (by omega) (by omega),
      jsParseInt_jsSubstring s 10 12 hall (by omega) (by omega),
      jsParseInt_jsSubstring s 12 14 hall (by omega) (by omega)]
    dsimp only
    rw [if_neg]
    intro hval
    obtain ⟨hy, hm, hd⟩ := hval
    rw [jsNewDate_year] at hy
    rw [jsNewDate_month] at hm
    rw [jsNewDate_day] at hd
    apply hreal
    have hcanon := jsDateCivil_canon
      ((QueclinkParser.digitsVal 10 (QueclinkParser.jsSubstring s 0 4).toList : ℕ) : ℤ)
      (((QueclinkParser.digitsVal 10 (QueclinkParser.jsSubstring s 4 6).toList : ℕ) : ℤ) - 1)
      ((QueclinkParser.digitsVal 10 (QueclinkParser.jsSubstring s 6 8).toList : ℕ) : ℤ)
      ((QueclinkParser.digitsVal 10 (QueclinkParser.jsSubstring s 8 10).toList : ℕ) : ℤ)
      ((QueclinkParser.digitsVal 10 (QueclinkParser.jsSubstring s 10 12).toList : ℕ) : ℤ)
      ((QueclinkParser.digitsVal 10 (QueclinkParser.jsSubstring s 12 14).toList : ℕ) : ℤ)
    obtain ⟨hm0, hm1, hd1, hd2⟩ := hcanon
    rw [hy] at hd2
    rw [hm] at hm0 hm1 hd2
    rw [hd] at hd1 hd2
    unfold QueclinkParser.realCalendarDate QueclinkParser.dtYear QueclinkParser.dtMonth
      QueclinkParser.dtDay
    exact ⟨by omega, by omega, by omega, hd2⟩
  · intro s h14 hall hy100 hreal hh23 hmi59 hss59
    have h14l : s.toList.length = 14 := h14
    have hne : s ≠ "" := by
      intro he
      rw [he] at h14
      simp at h14
    unfold QueclinkParser.dtYear at hy100
    unfold QueclinkParser.realCalendarDate QueclinkParser.dtYear QueclinkParser.dtMonth
      QueclinkParser.dtDay at hreal
    unfold QueclinkParser.dtHour at hh23
    unfold QueclinkParser.dtMinute at hmi59
    unfold QueclinkParser.dtSecond at hss59
    unfold QueclinkParser.dtYear QueclinkParser.dtMonth QueclinkParser.dtDay
      QueclinkParser.dtHour QueclinkParser.dtMinute QueclinkParser.dtSecond
    obtain ⟨hr1, hr2, hr3, hr4⟩ := hreal
    unfold QueclinkParser.parseDateTime
    rw [if_pos ⟨hne, h14⟩]
    rw [jsParseInt_jsSubstring s 0 4 hall (by omega) (by omega),
      jsParseInt_jsSubstring s 4 6 hall (by omega) (by omega),
      jsParseInt_jsSubstring s 6 8 hall (by omega) (by omega),
      jsParseInt_jsSubstring s 8 10 hall (by omega) (by omega),
      jsParseInt_jsSubstring s 10 12 hall (by omega) (by omega),
      jsParseInt_jsSubstring s 12 14 hall (by omega) (by omega)]
    dsimp only
    rw [jsNewDate_valid _ _ _ _ _ _ (by exact_mod_cast hy100) (by exact_mod_cast hr1)
      (by exact_mod_cast hr2) (by exact_mod_cast hr3) hr4
      (by positivity) (by exact_mod_cast hh23) (by positivity) (by exact_mod_cast hmi59)
      (by positivity) (by exact_mod_cast hss59)]
    rw [if_pos ⟨rfl, rfl, rfl⟩]

/-- C9, witness: the amended theorem applied to the invalid date Feb 31
and to a valid date. -/
theorem c9_witness :
    QueclinkParser.parseDateTime "20230231120000" = none ∧
    QueclinkParser.parseDateTime "20230215120000" =
      some { year := 2023, month := 1, day := 15, hour := 12, minute := 0, second := 0 } := by
  obtain ⟨h30, hinv, hval⟩ := c9_thm
  constructor
  · exact hinv "20230231120000" (by rfl) (by rfl) (by decide)
  · have h := hval "20230215120000" (by rfl) (by rfl) (by decide) (by decide)
      (by decide) (by decide) (by decide)
    rw [h]
    rfl

/-- C6, code-bug evidence: the same GTCID field list decodes differently
through the two message classes.  `parseBufferReport` drops the first
data field (`params.slice(1)`, src/parser.js:2470) because its comment
assumes the original mnemonic is still `params[0]`, although
`parseASCII` already removed it with the header; every following field
is therefore read one position early — here `iccId` picks up the
send-time string instead of the ICCID. -/
theorem c6_thm :
    QueclinkParser.iccIdOf (QueclinkParser.parse (.jstr
      "+RESP:GTCID,5E0100,135790246811220,,GV500MAP,89445385,20090214093254,11F0$")) =
      some "89445385" ∧
    QueclinkParser.iccIdOf (QueclinkParser.parse (.jstr
      "+BUFF:GTCID,5E0100,135790246811220,,GV500MAP,89445385,20090214093254,11F0$")) =
      some "20090214093254" ∧
    (some "89445385" : Option String) ≠ some "20090214093254" := by
  refine ⟨by rfl, by rfl, by decide⟩

/-- C7, code-bug evidence: every all-configurations (GTALM) ASCII report
fails to parse as a whole — `parseGTALM` is handed the parameter array
but calls `params.split(',')` on it (and would call the nonexistent
`this.parseDateTime` even on a string), so the `TypeError` is caught in
`parseASCII` and `parse` returns `null`; the per-section tag dispatch
with its raw-content fallback (src/parser.js:836-1262) is never
reached. -/
theorem c7_thm :
    QueclinkParser.parse (.jstr
      "+RESP:GTALM,5E0100,135790246811220,20250101120000,11F0,BSI,cmnet,user,pass,,,,0,0$")
      = none ∧
    QueclinkParser.parse (.jstr
      "+RESP:GTALM,5E0100,135790246811220,20250101120000,11F0,XYZ,raw,content$") = none := by
  refine ⟨by rfl, by rfl⟩

/-- C10, counterexample: the input "2B4842440000$" is a non-empty string
whose trimmed form neither begins with a class prefix nor consists
solely of hexadecimal characters (it ends in '$'), so the claim requires
`parse` to return `null`; but the code removes the trailing '$' before
the hexadecimal test, routes the remainder to the `+HBD` HEX decoder and
returns a report object. -/
theorem c10_counterexample :
    QueclinkParser.jsTrim "2B4842440000$" = "2B4842440000$" ∧
    QueclinkParser.jsStartsWith "2B4842440000$" "+RESP:" = false ∧
    QueclinkParser.jsStartsWith "2B4842440000$" "+ACK:" = false ∧
    QueclinkParser.jsStartsWith "2B4842440000$" "+BUFF:" = false ∧
    ("2B4842440000$".toList.all QueclinkParser.isHexChar) = false ∧
    QueclinkParser.parse (.jstr "2B4842440000$") ≠ none := by
  refine ⟨by rfl, by rfl, by rfl, by rfl, by rfl, ?_⟩
  intro h
  rw [show QueclinkParser.parse (.jstr "2B4842440000$") =
    some (.hex
      { originalMessage := "2B4842440000", messageType := "HEX"
        command := "2B484244"
        parsedData := .hbd (QueclinkParser.parseHEXHBD "2B4842440000") }) from rfl] at h
  exact Option.noConfusion h

/-- C10, amended: `parse` returns `null`, without throwing, for every
non-string input, for the empty string, and for every string whose
*cleaned* form — the trimmed form with one trailing '$' removed, as
computed at src/parser.js:110 — neither begins with one of the class
prefixes nor consists solely of more than ten hexadecimal characters. -/
theorem c10_thm :
    (∀ n : ℤ, QueclinkParser.parse (.jnum n) = none) ∧
    QueclinkParser.parse .jnull = none ∧
    QueclinkParser.parse .jundef = none ∧
    (∀ b : Bool, QueclinkParser.parse (.jbool b) = none) ∧
    QueclinkParser.parse (.jstr "") = none ∧
    (∀ s : String,
      QueclinkParser.jsStartsWith (QueclinkParser.cleanedOf s) "+RESP:" = false →
      QueclinkParser.jsStartsWith (QueclinkParser.cleanedOf s) "+ACK:" = false →
      QueclinkParser.jsStartsWith (QueclinkParser.cleanedOf s) "+BUFF:" = false →
      ¬ ((QueclinkParser.cleanedOf s ≠ "" ∧
          (QueclinkParser.cleanedOf s).toList.all QueclinkParser.isHexChar = true) ∧
        10 < (QueclinkParser.cleanedOf s).length) →
      QueclinkParser.parse (.jstr s) = none) := by
  refine ⟨fun n => rfl, rfl, rfl, fun b => rfl, rfl, ?_⟩
  intro s h1 h2 h3 h4
  by_cases hs : s = ""
  · rw [hs]
    rfl
  · unfold QueclinkParser.parse
    dsimp only
    rw [if_neg hs]
    unfold QueclinkParser.cleanedOf at h1 h2 h3 h4
    rw [if_neg (by simp [h1, h2, h3]), if_neg h4]

/-- C10, witness for the amended theorem at concrete inputs. -/
theorem c10_witness :
    QueclinkParser.parse (.jnum 42) = none ∧
    QueclinkParser.parse (.jstr "hello world") = none := by
  obtain ⟨hnum, hnull, hundef, hbool, hempty, hfall⟩ := c10_thm
  exact ⟨hnum 42, hfall "hello world" (by rfl) (by rfl) (by rfl) (by decide)⟩

/-- C5, witness: the valid unknown-command frame of the counterexample,
through the amended theorem. -/
theorem c5_witness :
    ProtocolParser.parse
        [0x7e, 0x02, 0x00, 0x00, 0x00, 0, 0, 0, 0, 0, 0, 0x00, 0x01, 0x03, 0x7e] = none :=
  c5_thm [0x7e, 0x02, 0x00, 0x00, 0x00, 0, 0, 0, 0, 0, 0, 0x00, 0x01, 0x03, 0x7e]
    (by decide) (by decide)
